import Mathlib

/-!
# go-mysql-orm, `orm/migrate.go`: table definition derived from a record type

A shallow embedding of `Migrate`, `generateColumnStrings`, `getMigrateColumns`
and `getTypeAndDefault`, followed by the properties of the specification that
were checked against it.

Conventions of the embedding.

* Go strings are Lean strings; the few functions of package `strings` that the
  source calls are defined on the character list, so they evaluate by
  structural recursion.
* A `reflect.Value` is represented by what the source asks of it:
  `CanSet()`, `Kind()`, `Elem().Kind()` and the two type assertions on
  `Interface()`.
* The loop bodies of the source are cut into stages, each a function on the
  column record; the line numbers of `migrate.go` are given at each stage.
* A Go map is an association list in insertion order; a `range` over a map
  visits it in an order chosen by the runtime, which is an argument here.
-/

namespace orm

/-! ## Package `strings` -/

namespace strings

/-- Lower case of one rune as `unicode.ToLower` gives it, on every rune whose
image is an ASCII letter: `A`..`Z`, U+0130 (to `i`) and U+212A (to `k`).
Every other rune is left as it is. The remaining runes that Go changes are
sent by Go to runes outside ASCII, and the source only compares lower-cased
text with ASCII literals. -/
def toLowerRune (c : Char) : Char :=
  if 65 ≤ c.toNat ∧ c.toNat ≤ 90 then Char.ofNat (c.toNat + 32)
  else if c.toNat = 0x130 then 'i'
  else if c.toNat = 0x212A then 'k'
  else c

/-- The function `strings.ToLower`. -/
def ToLower (s : String) : String := ⟨s.data.map toLowerRune⟩

/-- The function `strings.HasPrefix s p`: `s` begins with `p`. -/
def HasPrefix (s p : String) : Bool := p.data.isPrefixOf s.data

/-- The function `strings.Join elems sep`. -/
def Join : List String → String → String
  | [], _ => ""
  | [a], _ => a
  | a :: b :: rest, sep => a ++ sep ++ Join (b :: rest) sep

end strings

/-! ## Package `reflect` -/

namespace reflect

/-- The enumeration `reflect.Kind`. -/
inductive Kind
  | Invalid | Bool | Int | Int8 | Int16 | Int32 | Int64
  | Uint | Uint8 | Uint16 | Uint32 | Uint64 | Uintptr
  | Float32 | Float64 | Complex64 | Complex128
  | Array | Chan | Func | Interface | Map | Ptr | Slice | String | Struct
  | UnsafePointer
  deriving DecidableEq, Repr

/-- What the source observes of the `reflect.Value` of one struct field.
`ElemKind` is `Elem().Kind()` and is read only when `Kind` is `Ptr` (Go reports
`Invalid` there for a nil pointer). `IsTimePtr` and `IsTime` are the outcomes
of the assertions `Interface().(*time.Time)` and `Interface().(time.Time)`. -/
structure Value where
  CanSet : Bool
  Kind : orm.reflect.Kind
  ElemKind : orm.reflect.Kind
  IsTimePtr : Bool
  IsTime : Bool
  deriving DecidableEq, Repr

end reflect

open reflect (Kind Value)

/-! ## Data model -/

/-- Modelled from the spec: `getTags` is not part of `migrate.go`. Its result
is an ordered token list that is never absent, "so index 0 is always
addressable": token 0 and the tokens after it. -/
structure Tags where
  tok0 : String
  rest : List String
  deriving DecidableEq, Repr

/-- Field `i` of `table.tableStruct` together with the four token lists that
`table.getTags(i, "orm" | "json" | "comment" | "default")` returns for it. -/
structure structField where
  val : Value
  orm : Tags
  json : Tags
  comment : Tags
  dflt : Tags
  deriving DecidableEq, Repr

/-- The struct `dBColumn` (lines 22-35); its field `Type` is `Type_` here. -/
structure dBColumn where
  Name : String := ""
  Type_ : String := ""
  Null : Bool := false
  AutoIncrement : Bool := false
  Primary : Bool := false
  Unique : Bool := false
  Index : Bool := false
  Default : String := ""
  Comment : String := ""
  Indexs : List String := []
  Uniques : List String := []
  deriving DecidableEq, Repr

/-- The table value behind `queryTable.table`; only `TableName()` is used. -/
structure Table where
  TableName : String
  deriving DecidableEq, Repr

/-- The part of `queryTable` that `migrate.go` reads. -/
structure queryTable where
  table : Option Table
  ormFields : List String
  tableStruct : List structField
  deriving DecidableEq, Repr

/-- Database handle: `Exec` returns the error of the execution call, `none`
for Go's nil error (the affected-rows result is discarded by the source). -/
structure DB where
  Exec : String → Option String

/-- The part of `Query` that `migrate.go` reads: `DB` is the result of
`m.DB()`, `none` for a nil handle. -/
structure Query where
  DB : Option DB
  tables : List queryTable

/-- Order in which a `range` over a Go map visits the entries: some
rearrangement of them, chosen by the runtime. -/
structure RangeOrder where
  order : List (String × List String) → List (String × List String)
  perm : ∀ m, (order m).Perm m

/-- The range order that visits the entries as they were inserted. -/
def RangeOrder.insertion : RangeOrder := ⟨fun m => m, fun _ => List.Perm.refl _⟩

/-- The range order that visits the entries against insertion order. -/
def RangeOrder.reversed : RangeOrder := ⟨fun m => m.reverse, fun m => List.reverse_perm m⟩

/-! ## Constants (lines 11-20) -/

def primaryKeyPrefix : String := "primary"
def uniqueKeyPrefix : String := "unique"
def keyPrefix : String := "index"
def nullPrefix : String := "null"
def autoIncrementPrefix : String := "auto_increment"
def createdAtColumn : String := "created_at"
def updatedAtColumn : String := "updated_at"
def deletedAtColumn : String := "deleted_at"

def definedDefault : List String :=
  ["null", "current_timestamp", "current_timestamp on update current_timestamp"]

/-- Modelled from the spec: `SliceContain` is not part of `migrate.go`; the
source tests its result with `< 0` for "matches none of the literals". It is
the index of the first element equal to `x`, or `-1`. -/
def SliceContain : List String → String → Int
  | [], _ => -1
  | a :: rest, x =>
    if a = x then 0
    else
      let r := SliceContain rest x
      if r < 0 then -1 else r + 1

/-! ## `getTypeAndDefault` (lines 256-299) -/

def getTypeAndDefault (val : Value) : String × String :=
  let kind := if val.Kind = Kind.Ptr then val.ElemKind else val.Kind
  match kind with
  | Kind.Bool | Kind.Int8 => ("tinyint", "0")
  | Kind.Int16 => ("smallint", "0")
  | Kind.Int | Kind.Int32 => ("int", "0")
  | Kind.Int64 => ("bigint", "0")
  | Kind.Uint8 => ("tinyint unsigned", "0")
  | Kind.Uint16 => ("smallint unsigned", "0")
  | Kind.Uint | Kind.Uint32 => ("int unsigned", "0")
  | Kind.Uint64 => ("bigint unsigned", "0")
  | Kind.String => ("varchar(255)", "")
  | _ =>
    if val.IsTimePtr then ("timestamp", "")
    else if val.IsTime then ("timestamp", "")
    else ("varchar(255)", "")

/-! ## `getMigrateColumns` (lines 137-254) -/

/-- Lines 148-153: the column name. -/
def columnName (f : structField) : String :=
  if f.orm.tok0 ≠ "" then f.orm.tok0 else f.json.tok0

/-- Lines 142-144, 155-157, 160-164: the three `continue` statements. -/
def skipped (f : structField) : Bool :=
  f.val.CanSet = false ∨ (columnName f = "" ∨ columnName f = "-") ∨
    (f.val.Kind = Kind.Ptr ∧ f.val.ElemKind = Kind.Ptr)

/-- Lines 159-162: the local variable `kind`. -/
def fieldKind (f : structField) : Kind :=
  if f.val.Kind = Kind.Ptr then f.val.ElemKind else f.val.Kind

/-- Lines 146-175: name, nullability of a pointer field, base type and
default, and the convention for the field of index 0. -/
def initColumn (i : Nat) (f : structField) : dBColumn :=
  let column : dBColumn := {}
  let column := { column with Name := columnName f }
  let column := if f.val.Kind = Kind.Ptr then { column with Null := true } else column
  let column := { column with Type_ := (getTypeAndDefault f.val).1,
                              Default := (getTypeAndDefault f.val).2 }
  if i = 0 then
    let column := { column with Primary := true }
    if column.Default = "0" then { column with AutoIncrement := true } else column
  else column

/-- Lines 177-187: the columns recognised by name. -/
def bookkeeping (column : dBColumn) : dBColumn :=
  if column.Name = createdAtColumn then
    { column with Type_ := "timestamp", Default := "CURRENT_TIMESTAMP" }
  else if column.Name = updatedAtColumn then
    { column with Type_ := "timestamp",
                  Default := "CURRENT_TIMESTAMP ON UPDATE CURRENT_TIMESTAMP" }
  else if column.Name = deletedAtColumn then
    { column with Null := true, Type_ := "timestamp", Default := "Null" }
  else column

/-- Lines 189-200: comment and custom default. -/
def customDefault (f : structField) (column : dBColumn) : dBColumn :=
  let column := { column with Comment := f.comment.tok0 }
  let customDefault := f.dflt.tok0
  if customDefault ≠ "" then
    let column := { column with Default := customDefault }
    if fieldKind f = Kind.Bool then
      if strings.ToLower customDefault = "true" then { column with Default := "1" }
      else if strings.ToLower customDefault = "false" then { column with Default := "0" }
      else column
    else column
  else column

/-- Lines 209-229: one round of the loop over the `orm` tokens of index 1 and
up, on the pair `(overideColumn, column)`. -/
def ormToken (st : dBColumn × dBColumn) (v : String) : dBColumn × dBColumn :=
  if v = nullPrefix then ({ st.1 with Null := true }, st.2)
  else if v = autoIncrementPrefix then ({ st.1 with AutoIncrement := true }, st.2)
  else if strings.HasPrefix v primaryKeyPrefix then ({ st.1 with Primary := true }, st.2)
  else if strings.HasPrefix v uniqueKeyPrefix then
    if v = uniqueKeyPrefix then (st.1, { st.2 with Unique := true })
    else (st.1, { st.2 with Uniques := st.2.Uniques ++ [v] })
  else if strings.HasPrefix v keyPrefix then
    if v = keyPrefix then (st.1, { st.2 with Index := true })
    else (st.1, { st.2 with Indexs := st.2.Indexs ++ [v] })
  else ({ st.1 with Type_ := v }, st.2)

/-- Lines 202-238: the override by the `orm` tokens. -/
def ormOverride (f : structField) (column : dBColumn) : dBColumn :=
  if f.orm.tok0 ≠ "" then
    let st := f.orm.rest.foldl ormToken (({} : dBColumn), column)
    let overideColumn := st.1
    let column := st.2
    let column := { column with Null := overideColumn.Null,
                                AutoIncrement := overideColumn.AutoIncrement,
                                Primary := overideColumn.Primary }
    if overideColumn.Type_ ≠ "" then { column with Type_ := overideColumn.Type_ } else column
  else column

/-- Lines 240-244: a nullable column without custom default. -/
def nullDefault (f : structField) (column : dBColumn) : dBColumn :=
  if column.Null then
    if f.dflt.tok0 = "" then { column with Default := "null" } else column
  else column

/-- Lines 246-248: quoting of the default. -/
def quoteDefault (column : dBColumn) : dBColumn :=
  if column.Default = "" ∨
      SliceContain definedDefault (strings.ToLower column.Default) < 0 then
    { column with Default := "'" ++ column.Default ++ "'" }
  else column

/-- The column of a field that is not skipped, as it stands at line 245,
before the default is quoted. -/
def columnBeforeQuote (i : Nat) (f : structField) : dBColumn :=
  nullDefault f (ormOverride f (customDefault f (bookkeeping (initColumn i f))))

/-- One round of the loop of lines 139-251 for the field of index `i`: the
column appended to `ret`, or `none` when the round ends in `continue`. -/
def migrateColumn (i : Nat) (f : structField) : Option dBColumn :=
  if skipped f then none else some (quoteDefault (columnBeforeQuote i f))

/-- The loop of lines 139-251 from index `i` on, over the fields left. -/
def migrateColumnsFrom : Nat → List structField → List dBColumn
  | _, [] => []
  | i, f :: fs =>
    match migrateColumn i f with
    | none => migrateColumnsFrom (i + 1) fs
    | some column => column :: migrateColumnsFrom (i + 1) fs

def getMigrateColumns (table : queryTable) : List dBColumn :=
  migrateColumnsFrom 0 table.tableStruct

/-! ## `generateColumnStrings` (lines 63-135) -/

/-- The statement `m[k] = append(m[k], x)` on a Go map. -/
def mapAppend : List (String × List String) → String → String → List (String × List String)
  | [], k, x => [(k, [x])]
  | (k', xs) :: m, k, x =>
    if k' = k then (k', xs ++ [x]) :: m else (k', xs) :: mapAppend m k x

/-- The local variables of `generateColumnStrings` (lines 64-69). -/
structure genState where
  ret : List String := []
  primaryStr : String := ""
  uniqueColumns : List String := []
  indexColumns : List String := []
  uniqueComps : List (String × List String) := []
  indexComps : List (String × List String) := []
  deriving DecidableEq, Repr

/-- Lines 72-95: the words of one column clause. -/
def columnWords (v : dBColumn) : List String :=
  let words : List String := []
  let words := words ++ ["`" ++ v.Name ++ "`"]
  let words := words ++ [v.Type_]
  let words := if v.Null then words ++ ["null"] else words ++ ["not null"]
  let words :=
    if v.AutoIncrement then words ++ ["auto_increment"]
    else if v.Default ≠ "" then words ++ ["default " ++ v.Default]
    else words
  if v.Comment ≠ "" then words ++ ["comment " ++ "'" ++ v.Comment ++ "'"] else words

/-- Lines 72-116: one round of the loop over the columns. -/
def genColumn (s : genState) (v : dBColumn) : genState :=
  let s :=
    if v.Primary then
      { s with primaryStr := "primary key (" ++ ("`" ++ v.Name ++ "`") ++ ")" }
    else if v.Unique then
      { s with uniqueColumns :=
          s.uniqueColumns ++ ["unique key `" ++ v.Name ++ "` (`" ++ v.Name ++ "`)"] }
    else if v.Index then
      { s with indexColumns :=
          s.indexColumns ++ ["key `" ++ v.Name ++ "` (`" ++ v.Name ++ "`)"] }
    else s
  let s :=
    { s with uniqueComps :=
        v.Uniques.foldl (fun m v2 => mapAppend m v2 ("`" ++ v.Name ++ "`")) s.uniqueComps }
  let s :=
    { s with indexComps :=
        v.Indexs.foldl (fun m v2 => mapAppend m v2 ("`" ++ v.Name ++ "`")) s.indexComps }
  { s with ret := s.ret ++ [strings.Join (columnWords v) " "] }

/-- Lines 118-134: the key clauses appended after the loop. -/
def genFinish (ru ri : RangeOrder) (s : genState) : List String :=
  let ret := s.ret
  let ret := if s.primaryStr ≠ "" then ret ++ [s.primaryStr] else ret
  let ret := ret ++ s.uniqueColumns
  let ret := ret ++ s.indexColumns
  let ret := ret ++ (ru.order s.uniqueComps).map
    (fun kv => "unique key `" ++ kv.1 ++ "` (" ++ strings.Join kv.2 "," ++ ")")
  ret ++ (ri.order s.indexComps).map
    (fun kv => "key `" ++ kv.1 ++ "` (" ++ strings.Join kv.2 "," ++ ")")

/-- The function `generateColumnStrings`; `ru` and `ri` are the orders of the
two `range` loops over `uniqueComps` and `indexComps`. -/
def generateColumnStrings (ru ri : RangeOrder) (dbColums : List dBColumn) : List String :=
  genFinish ru ri (dbColums.foldl genColumn {})

/-! ## `Migrate` (lines 37-61) -/

/-- Outcome of `Migrate`: the two returned values, and the statements passed
to `db.Exec`, in call order. -/
structure MigrateResult where
  sql : String
  err : Option String
  executed : List String
  deriving DecidableEq, Repr

def Migrate (ru ri : RangeOrder) (m : Query) : MigrateResult :=
  match m.DB with
  | none => ⟨"", some "no db exist", []⟩
  | some db =>
    match m.tables with
    | [] => ⟨"", some "no table exist", []⟩
    | t0 :: _ =>
      if t0.ormFields.length = 0 then ⟨"", some "no table exist", []⟩
      else
        match t0.table with
        | none => ⟨"", some "no table exist", []⟩
        | some tbl =>
          if tbl.TableName = "" then ⟨"", some "no table exist", []⟩
          else
            let dbColums := getMigrateColumns t0
            if dbColums.length = 0 then ⟨"", some "no column exist", []⟩
            else
              let dbColumnStrs := generateColumnStrings ru ri dbColums
              let createTableSql :=
                "create table IF NOT EXISTS `" ++ tbl.TableName ++ "` (" ++
                  strings.Join dbColumnStrs "," ++ ")"
              ⟨createTableSql, db.Exec createTableSql, [createTableSql]⟩

/-! ## Inputs and vocabulary of the properties -/

/-- A settable field with no `orm`, `comment` or `default` tag, named by its
`json` tag. -/
def exampleField (v : Value) (json : String) : structField :=
  ⟨v, ⟨"", []⟩, ⟨json, []⟩, ⟨"", []⟩, ⟨"", []⟩⟩

/-- The fields `id int64`, `name string`, `created_at time.Time` and
`deleted_at *time.Time`; `nilPtr` tells whether the pointer is nil. -/
def exampleFields (nilPtr : Bool) : List structField :=
  [exampleField ⟨true, Kind.Int64, Kind.Invalid, false, false⟩ "id",
   exampleField ⟨true, Kind.String, Kind.Invalid, false, false⟩ "name",
   exampleField ⟨true, Kind.Struct, Kind.Invalid, false, true⟩ "created_at",
   exampleField ⟨true, Kind.Ptr, if nilPtr then Kind.Invalid else Kind.Struct, true, false⟩
     "deleted_at"]

/-- The table `t` over `exampleFields`. -/
def exampleTable (ormFields : List String) (nilPtr : Bool) : queryTable :=
  ⟨some ⟨"t"⟩, ormFields, exampleFields nilPtr⟩

/-- The columns resolved for `exampleFields`. -/
def exampleColumns : List dBColumn :=
  [ { Name := "id", Type_ := "bigint", AutoIncrement := true, Primary := true,
      Default := "'0'" },
    { Name := "name", Type_ := "varchar(255)", Default := "''" },
    { Name := "created_at", Type_ := "timestamp", Default := "CURRENT_TIMESTAMP" },
    { Name := "deleted_at", Type_ := "timestamp", Null := true, Default := "null" } ]

/-- A token of index 1 and up that is none of the recognised forms: the
source takes it for an SQL type (the last branch of lines 209-229). -/
def isTypeToken (v : String) : Bool :=
  v ≠ nullPrefix ∧ v ≠ autoIncrementPrefix ∧ strings.HasPrefix v primaryKeyPrefix = false ∧
    strings.HasPrefix v uniqueKeyPrefix = false ∧ strings.HasPrefix v keyPrefix = false

/-- A struct whose first field `id int64` is renamed by the tag `orm:"id"`,
followed by `name string`. -/
def renamedIdFields : List structField :=
  [⟨⟨true, Kind.Int64, Kind.Invalid, false, false⟩, ⟨"id", []⟩, ⟨"id", []⟩, ⟨"", []⟩,
     ⟨"", []⟩⟩,
   exampleField ⟨true, Kind.String, Kind.Invalid, false, false⟩ "name"]

/-- A struct whose first field is hidden from the table by `json:"-"`, followed
by `name string`. -/
def hiddenFirstFields : List structField :=
  [exampleField ⟨true, Kind.Int64, Kind.Invalid, false, false⟩ "-",
   exampleField ⟨true, Kind.String, Kind.Invalid, false, false⟩ "name"]

/-- Whether some `orm` token of index 1 and up begins with `primary`. -/
def hasPrimaryToken (f : structField) : Bool :=
  f.orm.rest.any (fun v => strings.HasPrefix v primaryKeyPrefix)

/-- A field `created_at time.Time` with the tag `default:"2000-01-01 00:00:00"`. -/
def createdAtWithDefault : structField :=
  ⟨⟨true, Kind.Struct, Kind.Invalid, false, true⟩, ⟨"", []⟩, ⟨"created_at", []⟩, ⟨"", []⟩,
    ⟨"2000-01-01 00:00:00", []⟩⟩

/-- A field `name string` with the tag `orm:"name,varchar(10),"`: token 0 is
`name`, followed by a type token and an empty token. -/
def typeThenEmptyToken : structField :=
  ⟨⟨true, Kind.String, Kind.Invalid, false, false⟩, ⟨"name", ["varchar(10)", ""]⟩, ⟨"", []⟩,
    ⟨"", []⟩, ⟨"", []⟩⟩

/-- A field `id int64` with the tag `orm:"id,primary,auto_increment,bigint(20)"`. -/
def taggedIdField : structField :=
  ⟨⟨true, Kind.Int64, Kind.Invalid, false, false⟩,
    ⟨"id", ["primary", "auto_increment", "bigint(20)"]⟩, ⟨"", []⟩, ⟨"", []⟩, ⟨"", []⟩⟩

/-- The declared type of a struct field, as far as `migrate.go` tells types
apart: a type that is no pointer and not `time.Time`, given by its kind;
`time.Time`; or a pointer to such a type. -/
inductive GoType
  | plain (k : Kind)
  | time
  | ptr (elem : GoType)
  deriving DecidableEq, Repr

/-- The kind of a declared type. -/
def GoType.kind : GoType → Kind
  | GoType.plain k => k
  | GoType.time => Kind.Struct
  | GoType.ptr _ => Kind.Ptr

/-- What package `reflect` reports of a settable field of declared type `t`.
For a pointer field `nilPtr` tells whether the pointer is nil, as it is in a
zero struct. `Elem()` of a nil pointer is the zero `Value`, whose `Kind()` is
`Invalid`; the assertions on `Interface()` go by the type of the field, nil or
not. `ElemKind` is not read for a field that is no pointer. -/
def fieldValue (t : GoType) (nilPtr : Bool) : Value :=
  { CanSet := true
    Kind := t.kind
    ElemKind :=
      match t with
      | GoType.ptr e => if nilPtr then Kind.Invalid else e.kind
      | _ => Kind.Invalid
    IsTimePtr :=
      match t with
      | GoType.ptr GoType.time => true
      | _ => false
    IsTime :=
      match t with
      | GoType.time => true
      | _ => false }

/-- A field `active *bool` with the tag `default:"True"`, named by its `json`
tag; the pointer is nil or not. -/
def boolPtrWithDefault (nilPtr : Bool) : structField :=
  ⟨fieldValue (GoType.ptr (GoType.plain Kind.Bool)) nilPtr, ⟨"", []⟩, ⟨"active", []⟩,
    ⟨"", []⟩, ⟨"True", []⟩⟩

/-- A field `parent **T` (`T` a struct) named by its `json` tag and without any
other tag; the outer pointer is nil or not. -/
def ptrPtrNamedField (nilPtr : Bool) : structField :=
  exampleField (fieldValue (GoType.ptr (GoType.ptr (GoType.plain Kind.Struct))) nilPtr)
    "parent"

/-- A field `parent **T` (`T` a struct) with the tag `orm:"parent,primary"`; the
outer pointer is nil or not. -/
def ptrPtrField (nilPtr : Bool) : structField :=
  ⟨fieldValue (GoType.ptr (GoType.ptr (GoType.plain Kind.Struct))) nilPtr,
    ⟨"parent", ["primary"]⟩, ⟨"parent", []⟩, ⟨"", []⟩, ⟨"", []⟩⟩

/-- The kinds that have a row of their own in the Type Mapper table. -/
def mappedKinds : List Kind :=
  [Kind.Bool, Kind.Int8, Kind.Int16, Kind.Int, Kind.Int32, Kind.Int64, Kind.Uint8,
   Kind.Uint16, Kind.Uint, Kind.Uint32, Kind.Uint64, Kind.String]

/-- The words of a column clause as the specification lists them: the name
between backticks, the type, `null` or `not null`, then `auto_increment` if
set, else `default` and the default if that is not empty, then `comment` and
the quoted comment if that is not empty. -/
def clauseWords (v : dBColumn) : List String :=
  ["`" ++ v.Name ++ "`", v.Type_, if v.Null then "null" else "not null"] ++
    (if v.AutoIncrement then ["auto_increment"]
     else if v.Default ≠ "" then ["default " ++ v.Default] else []) ++
    (if v.Comment ≠ "" then ["comment '" ++ v.Comment ++ "'"] else [])

/-- A column `id` that is auto-increment and yet holds a default and a
comment. -/
def autoIncrementColumn : dBColumn :=
  { Name := "id", Type_ := "bigint", AutoIncrement := true, Primary := true,
    Default := "'7'", Comment := "key" }

/-- The primary-key clause of the output: that of the last primary column of
the list, if there is one. -/
def primaryClauses (cols : List dBColumn) : List String :=
  match (cols.filter (fun c => c.Primary)).getLast? with
  | none => []
  | some c => ["primary key (`" ++ c.Name ++ "`)"]

/-- The simple unique-key clauses: one for each column that is flagged unique
and is not primary. -/
def simpleUniqueClauses (cols : List dBColumn) : List String :=
  (cols.filter (fun c => !c.Primary && c.Unique)).map
    (fun c => "unique key `" ++ c.Name ++ "` (`" ++ c.Name ++ "`)")

/-- The simple index clauses: one for each column that is flagged as index and
is neither primary nor unique. -/
def simpleIndexClauses (cols : List dBColumn) : List String :=
  (cols.filter (fun c => !c.Primary && !c.Unique && c.Index)).map
    (fun c => "key `" ++ c.Name ++ "` (`" ++ c.Name ++ "`)")

/-- The insertions `(group, quoted column name)` that the loop makes into one
of the two maps, in order; `sel` is `Uniques` or `Indexs`. -/
def groupInsertions (sel : dBColumn → List String) (cols : List dBColumn) :
    List (String × String) :=
  cols.flatMap (fun v => (sel v).map (fun g => (g, "`" ++ v.Name ++ "`")))

/-- The distinct elements of a list, in order of first occurrence. -/
def firstOccurrences : List String → List String
  | [] => []
  | a :: l => a :: (firstOccurrences l).filter (fun b => b ≠ a)

/-- The groups that a sequence of insertions `(group, member)` describes: the
distinct group names in order of first occurrence, each with the members
inserted for it, in order of insertion. -/
def groupsOf (ins : List (String × String)) : List (String × List String) :=
  (firstOccurrences (ins.map Prod.fst)).map
    (fun g => (g, (ins.filter (fun p => p.1 = g)).map Prod.snd))

/-- The composite groups of a list of columns; `sel` is `Uniques` or `Indexs`. -/
def compositeGroups (sel : dBColumn → List String) (cols : List dBColumn) :
    List (String × List String) :=
  groupsOf (groupInsertions sel cols)

/-- The key columns of the tags `orm:"id,primary,unique"` and
`orm:"code,unique,index"`: the first is primary and unique, the second unique
and index. -/
def doublyFlaggedColumns : List dBColumn :=
  [ { Name := "id", Type_ := "bigint", Primary := true, Unique := true, Default := "'0'" },
    { Name := "code", Type_ := "varchar(255)", Unique := true, Index := true,
      Default := "''" } ]

/-- The column of the tag `orm:"a,unique_x,unique_x"`: the group `unique_x` is
named twice. -/
def repeatedGroupColumns : List dBColumn :=
  [ { Name := "a", Type_ := "int", Default := "'0'", Uniques := ["unique_x", "unique_x"] } ]

/-- Three columns over two unique groups and one index group: `a` and `c` are
in `unique_x`, `b` and `c` in `unique_y`, `a` and `b` in `index_z`. -/
def groupedColumns : List dBColumn :=
  [ { Name := "a", Type_ := "int", Default := "'0'", Uniques := ["unique_x"],
      Indexs := ["index_z"] },
    { Name := "b", Type_ := "int", Default := "'0'", Uniques := ["unique_y"],
      Indexs := ["index_z"] },
    { Name := "c", Type_ := "int", Default := "'0'", Uniques := ["unique_x", "unique_y"] } ]

/-- A handle whose `Exec` succeeds. -/
def okDB : DB := ⟨fun _ => none⟩

/-- A handle whose `Exec` fails with the error `exec failed`. -/
def failingDB : DB := ⟨fun _ => some "exec failed"⟩

/-- A field `id int64` with the tag `orm:"id,null,auto_increment"`. -/
def nullAutoIncrementField : structField :=
  ⟨⟨true, Kind.Int64, Kind.Invalid, false, false⟩, ⟨"id", ["null", "auto_increment"]⟩,
    ⟨"", []⟩, ⟨"", []⟩, ⟨"", []⟩⟩

/-- A field `a int` with the tag `orm:"a,unique_x,unique_x"`. -/
def repeatedTokenField : structField :=
  ⟨⟨true, Kind.Int, Kind.Invalid, false, false⟩, ⟨"a", ["unique_x", "unique_x"]⟩, ⟨"", []⟩,
    ⟨"", []⟩, ⟨"", []⟩⟩

/-- A field `a int` with the tag `orm:"a,unique_x,index_z,unique_y"`. -/
def groupTokenField : structField :=
  ⟨⟨true, Kind.Int, Kind.Invalid, false, false⟩,
    ⟨"a", ["unique_x", "index_z", "unique_y"]⟩, ⟨"", []⟩, ⟨"", []⟩, ⟨"", []⟩⟩

/-- Two primary columns `id` and `code`, then a column `name`. -/
def twoPrimaryColumns : List dBColumn :=
  [ { Name := "id", Type_ := "bigint", Primary := true, Default := "'0'" },
    { Name := "code", Type_ := "varchar(255)", Primary := true, Default := "''" },
    { Name := "name", Type_ := "varchar(255)", Default := "''" } ]

/-! ## Properties -/

theorem RangeOrder.order_nil (ρ : RangeOrder) : ρ.order [] = [] :=
  List.Perm.eq_nil (ρ.perm [])

theorem exampleFields_columns (nilPtr : Bool) :
    migrateColumnsFrom 0 (exampleFields nilPtr) = exampleColumns := by
  cases nilPtr <;> decide

set_option maxRecDepth 100000 in
theorem exampleColumns_strings (ru ri : RangeOrder) :
    generateColumnStrings ru ri exampleColumns =
      ["`id` bigint not null auto_increment", "`name` varchar(255) not null default ''",
       "`created_at` timestamp not null default CURRENT_TIMESTAMP",
       "`deleted_at` timestamp null default null", "primary key (`id`)"] := by
  have hs : List.foldl genColumn {} exampleColumns =
      { ret := ["`id` bigint not null auto_increment",
                "`name` varchar(255) not null default ''",
                "`created_at` timestamp not null default CURRENT_TIMESTAMP",
                "`deleted_at` timestamp null default null"],
        primaryStr := "primary key (`id`)" } := by decide
  unfold generateColumnStrings
  rw [hs]
  simp [genFinish, RangeOrder.order_nil]

set_option maxRecDepth 100000 in
/-- C1. For the table `t` with the fields id (int64), name (string),
created_at (time value) and deleted_at (optional time, nil or not), named by
their fallback names and carrying no other tag, `Migrate` returns exactly the
statement text of the specification, whatever the handle, the range orders,
the registered `ormFields` (not empty) and the tables registered after it. -/
theorem C1_migrate_example (ru ri : RangeOrder) (db : DB) (o : String) (os : List String)
    (nilPtr : Bool) (more : List queryTable) :
    (Migrate ru ri ⟨some db, exampleTable (o :: os) nilPtr :: more⟩).sql =
      "create table IF NOT EXISTS `t` (`id` bigint not null auto_increment,`name` varchar(255) not null default '',`created_at` timestamp not null default CURRENT_TIMESTAMP,`deleted_at` timestamp null default null,primary key (`id`))" := by
  have hc : getMigrateColumns (exampleTable (o :: os) nilPtr) = exampleColumns :=
    exampleFields_columns nilPtr
  simp only [Migrate, exampleTable] at hc ⊢
  have h1 : ¬ (o :: os).length = 0 := by simp
  have h2 : ¬ ("t" : String) = "" := by decide
  have h3 : ¬ exampleColumns.length = 0 := by decide
  simp only [hc, exampleColumns_strings, if_neg h1, if_neg h2, if_neg h3]
  decide

/-! ### What each stage of `getMigrateColumns` keeps and sets -/

theorem initColumn_Name (i : Nat) (f : structField) : (initColumn i f).Name = columnName f := by
  unfold initColumn; simp only []; split_ifs <;> rfl

theorem initColumn_Type (i : Nat) (f : structField) :
    (initColumn i f).Type_ = (getTypeAndDefault f.val).1 := by
  unfold initColumn; simp only []; split_ifs <;> rfl

theorem initColumn_Default (i : Nat) (f : structField) :
    (initColumn i f).Default = (getTypeAndDefault f.val).2 := by
  unfold initColumn; simp only []; split_ifs <;> rfl

theorem initColumn_Null (i : Nat) (f : structField) :
    (initColumn i f).Null = decide (f.val.Kind = Kind.Ptr) := by
  unfold initColumn; simp only []; split_ifs <;> simp [*]

theorem initColumn_Primary (i : Nat) (f : structField) :
    (initColumn i f).Primary = decide (i = 0) := by
  unfold initColumn; simp only []; split_ifs <;> simp [*]

theorem bookkeeping_Name (c : dBColumn) : (bookkeeping c).Name = c.Name := by
  unfold bookkeeping; split_ifs <;> rfl

theorem bookkeeping_Primary (c : dBColumn) : (bookkeeping c).Primary = c.Primary := by
  unfold bookkeeping; split_ifs <;> rfl

theorem bookkeeping_Null (c : dBColumn) :
    (bookkeeping c).Null = (c.Null || decide (c.Name = deletedAtColumn)) := by
  unfold bookkeeping
  by_cases h1 : c.Name = createdAtColumn
  · have h : ¬ c.Name = deletedAtColumn := by rw [h1]; decide
    simp only [if_pos h1, decide_eq_false h, Bool.or_false]
  by_cases h2 : c.Name = updatedAtColumn
  · have h : ¬ c.Name = deletedAtColumn := by rw [h2]; decide
    simp only [if_neg h1, if_pos h2, decide_eq_false h, Bool.or_false]
  by_cases h3 : c.Name = deletedAtColumn
  · simp only [if_neg h1, if_neg h2, if_pos h3, decide_eq_true h3, Bool.or_true]
  · simp only [if_neg h1, if_neg h2, if_neg h3, decide_eq_false h3, Bool.or_false]

theorem bookkeeping_Type (c : dBColumn) :
    (bookkeeping c).Type_ =
      if c.Name = createdAtColumn ∨ c.Name = updatedAtColumn ∨ c.Name = deletedAtColumn
      then "timestamp" else c.Type_ := by
  unfold bookkeeping; split_ifs <;> simp_all

theorem customDefault_Name (f : structField) (c : dBColumn) :
    (customDefault f c).Name = c.Name := by
  unfold customDefault; simp only []; split_ifs <;> rfl

theorem customDefault_Type (f : structField) (c : dBColumn) :
    (customDefault f c).Type_ = c.Type_ := by
  unfold customDefault; simp only []; split_ifs <;> rfl

theorem customDefault_Null (f : structField) (c : dBColumn) :
    (customDefault f c).Null = c.Null := by
  unfold customDefault; simp only []; split_ifs <;> rfl

theorem customDefault_Primary (f : structField) (c : dBColumn) :
    (customDefault f c).Primary = c.Primary := by
  unfold customDefault; simp only []; split_ifs <;> rfl

theorem customDefault_Comment (f : structField) (c : dBColumn) :
    (customDefault f c).Comment = f.comment.tok0 := by
  unfold customDefault; simp only []; split_ifs <;> rfl

theorem customDefault_Default_empty (f : structField) (c : dBColumn) (h : f.dflt.tok0 = "") :
    (customDefault f c).Default = c.Default := by
  unfold customDefault; simp [h]

theorem nullDefault_Name (f : structField) (c : dBColumn) :
    (nullDefault f c).Name = c.Name := by
  unfold nullDefault; split_ifs <;> rfl

theorem nullDefault_Type (f : structField) (c : dBColumn) :
    (nullDefault f c).Type_ = c.Type_ := by
  unfold nullDefault; split_ifs <;> rfl

theorem nullDefault_Null (f : structField) (c : dBColumn) :
    (nullDefault f c).Null = c.Null := by
  unfold nullDefault; split_ifs <;> rfl

theorem nullDefault_AutoIncrement (f : structField) (c : dBColumn) :
    (nullDefault f c).AutoIncrement = c.AutoIncrement := by
  unfold nullDefault; split_ifs <;> rfl

theorem nullDefault_Primary (f : structField) (c : dBColumn) :
    (nullDefault f c).Primary = c.Primary := by
  unfold nullDefault; split_ifs <;> rfl

theorem nullDefault_Comment (f : structField) (c : dBColumn) :
    (nullDefault f c).Comment = c.Comment := by
  unfold nullDefault; split_ifs <;> rfl

theorem quoteDefault_Name (c : dBColumn) : (quoteDefault c).Name = c.Name := by
  unfold quoteDefault; split_ifs <;> rfl

theorem quoteDefault_Type (c : dBColumn) : (quoteDefault c).Type_ = c.Type_ := by
  unfold quoteDefault; split_ifs <;> rfl

theorem quoteDefault_Null (c : dBColumn) : (quoteDefault c).Null = c.Null := by
  unfold quoteDefault; split_ifs <;> rfl

theorem quoteDefault_AutoIncrement (c : dBColumn) :
    (quoteDefault c).AutoIncrement = c.AutoIncrement := by
  unfold quoteDefault; split_ifs <;> rfl

theorem quoteDefault_Primary (c : dBColumn) : (quoteDefault c).Primary = c.Primary := by
  unfold quoteDefault; split_ifs <;> rfl

theorem quoteDefault_Comment (c : dBColumn) : (quoteDefault c).Comment = c.Comment := by
  unfold quoteDefault; split_ifs <;> rfl

/-! ### Facts about the constant tokens -/

theorem autoIncrement_ne_null : autoIncrementPrefix ≠ nullPrefix := by decide
theorem unique_ne_null : uniqueKeyPrefix ≠ nullPrefix := by decide
theorem index_ne_null : keyPrefix ≠ nullPrefix := by decide
theorem unique_ne_autoIncrement : uniqueKeyPrefix ≠ autoIncrementPrefix := by decide
theorem index_ne_autoIncrement : keyPrefix ≠ autoIncrementPrefix := by decide
theorem null_not_primary : strings.HasPrefix nullPrefix primaryKeyPrefix = false := by decide
theorem autoIncrement_not_primary :
    strings.HasPrefix autoIncrementPrefix primaryKeyPrefix = false := by decide
theorem unique_not_primary : strings.HasPrefix uniqueKeyPrefix primaryKeyPrefix = false := by
  decide
theorem index_not_primary : strings.HasPrefix keyPrefix primaryKeyPrefix = false := by decide

theorem ormToken_Null (st : dBColumn × dBColumn) (v : String) :
    (ormToken st v).1.Null = (st.1.Null || decide (v = nullPrefix)) := by
  unfold ormToken
  by_cases h1 : v = nullPrefix
  · simp [h1]
  simp only [if_neg h1]
  split_ifs <;> simp [h1]

theorem ormToken_AutoIncrement (st : dBColumn × dBColumn) (v : String) :
    (ormToken st v).1.AutoIncrement =
      (st.1.AutoIncrement || decide (v = autoIncrementPrefix)) := by
  unfold ormToken
  by_cases h1 : v = nullPrefix
  · simp [h1, autoIncrement_ne_null.symm]
  by_cases h2 : v = autoIncrementPrefix
  · simp [h2, autoIncrement_ne_null]
  simp only [if_neg h1, if_neg h2]
  split_ifs <;> simp [h2]

theorem ormToken_Primary (st : dBColumn × dBColumn) (v : String) :
    (ormToken st v).1.Primary = (st.1.Primary || strings.HasPrefix v primaryKeyPrefix) := by
  unfold ormToken
  by_cases h1 : v = nullPrefix
  · simp [h1, null_not_primary]
  by_cases h2 : v = autoIncrementPrefix
  · simp [h2, autoIncrement_ne_null, autoIncrement_not_primary]
  by_cases h3 : strings.HasPrefix v primaryKeyPrefix = true
  · simp [h1, h2, h3]
  simp only [if_neg h1, if_neg h2, if_neg h3]
  split_ifs <;> simp [h3]

theorem ormToken_Type (st : dBColumn × dBColumn) (v : String) :
    (ormToken st v).1.Type_ = if isTypeToken v then v else st.1.Type_ := by
  unfold ormToken isTypeToken
  split_ifs <;> simp_all

theorem ormToken_snd_Name (st : dBColumn × dBColumn) (v : String) :
    (ormToken st v).2.Name = st.2.Name := by
  unfold ormToken; split_ifs <;> rfl

theorem ormFold_Null (rest : List String) (st : dBColumn × dBColumn) :
    (rest.foldl ormToken st).1.Null = (st.1.Null || rest.any (fun v => decide (v = nullPrefix))) := by
  induction rest generalizing st with
  | nil => simp
  | cons v vs ih => simp [List.foldl, ih, ormToken_Null, Bool.or_assoc]

theorem ormFold_Type (rest : List String) (st : dBColumn × dBColumn) :
    (rest.foldl ormToken st).1.Type_ =
      ((rest.filter isTypeToken).getLast?).getD st.1.Type_ := by
  induction rest generalizing st with
  | nil => simp
  | cons v vs ih =>
    simp only [List.foldl, ih, ormToken_Type, List.filter_cons]
    by_cases hv : isTypeToken v = true
    · simp only [hv, if_true]
      cases hf : List.filter isTypeToken vs with
      | nil => simp
      | cons a as => rw [List.getLast?_eq_getLast _ (List.cons_ne_nil a as)]; rfl
    · simp [hv]

/-! ### The loop over the `orm` tokens -/

theorem ormToken_snd_Type (st : dBColumn × dBColumn) (v : String) :
    (ormToken st v).2.Type_ = st.2.Type_ := by
  unfold ormToken; split_ifs <;> rfl

theorem ormToken_snd_Default (st : dBColumn × dBColumn) (v : String) :
    (ormToken st v).2.Default = st.2.Default := by
  unfold ormToken; split_ifs <;> rfl

theorem ormToken_snd_Comment (st : dBColumn × dBColumn) (v : String) :
    (ormToken st v).2.Comment = st.2.Comment := by
  unfold ormToken; split_ifs <;> rfl

theorem ormFold_AutoIncrement (rest : List String) (st : dBColumn × dBColumn) :
    (rest.foldl ormToken st).1.AutoIncrement =
      (st.1.AutoIncrement || rest.any (fun v => decide (v = autoIncrementPrefix))) := by
  induction rest generalizing st with
  | nil => simp
  | cons v vs ih => simp [List.foldl, ih, ormToken_AutoIncrement, Bool.or_assoc]

theorem ormFold_Primary (rest : List String) (st : dBColumn × dBColumn) :
    (rest.foldl ormToken st).1.Primary =
      (st.1.Primary || rest.any (fun v => strings.HasPrefix v primaryKeyPrefix)) := by
  induction rest generalizing st with
  | nil => simp
  | cons v vs ih => simp [List.foldl, ih, ormToken_Primary, Bool.or_assoc]

theorem ormFold_snd_Name (rest : List String) (st : dBColumn × dBColumn) :
    (rest.foldl ormToken st).2.Name = st.2.Name := by
  induction rest generalizing st with
  | nil => rfl
  | cons v vs ih => simp [List.foldl, ih, ormToken_snd_Name]

theorem ormFold_snd_Type (rest : List String) (st : dBColumn × dBColumn) :
    (rest.foldl ormToken st).2.Type_ = st.2.Type_ := by
  induction rest generalizing st with
  | nil => rfl
  | cons v vs ih => simp [List.foldl, ih, ormToken_snd_Type]

theorem ormFold_snd_Default (rest : List String) (st : dBColumn × dBColumn) :
    (rest.foldl ormToken st).2.Default = st.2.Default := by
  induction rest generalizing st with
  | nil => rfl
  | cons v vs ih => simp [List.foldl, ih, ormToken_snd_Default]

theorem ormFold_snd_Comment (rest : List String) (st : dBColumn × dBColumn) :
    (rest.foldl ormToken st).2.Comment = st.2.Comment := by
  induction rest generalizing st with
  | nil => rfl
  | cons v vs ih => simp [List.foldl, ih, ormToken_snd_Comment]

/-! ### The override by the `orm` tokens -/

theorem ormOverride_of_empty (f : structField) (c : dBColumn) (h : f.orm.tok0 = "") :
    ormOverride f c = c := by
  unfold ormOverride; simp [h]

theorem ormOverride_Name (f : structField) (c : dBColumn) : (ormOverride f c).Name = c.Name := by
  unfold ormOverride; simp only []; split_ifs <;> simp [ormFold_snd_Name]

theorem ormOverride_Default (f : structField) (c : dBColumn) :
    (ormOverride f c).Default = c.Default := by
  unfold ormOverride; simp only []; split_ifs <;> simp [ormFold_snd_Default]

theorem ormOverride_Comment (f : structField) (c : dBColumn) :
    (ormOverride f c).Comment = c.Comment := by
  unfold ormOverride; simp only []; split_ifs <;> simp [ormFold_snd_Comment]

theorem ormOverride_Null (f : structField) (c : dBColumn) (h : f.orm.tok0 ≠ "") :
    (ormOverride f c).Null = f.orm.rest.any (fun v => decide (v = nullPrefix)) := by
  unfold ormOverride; simp only [if_pos h]; split_ifs <;> simp [ormFold_Null]

theorem ormOverride_AutoIncrement (f : structField) (c : dBColumn) (h : f.orm.tok0 ≠ "") :
    (ormOverride f c).AutoIncrement =
      f.orm.rest.any (fun v => decide (v = autoIncrementPrefix)) := by
  unfold ormOverride; simp only [if_pos h]; split_ifs <;> simp [ormFold_AutoIncrement]

theorem ormOverride_Primary (f : structField) (c : dBColumn) (h : f.orm.tok0 ≠ "") :
    (ormOverride f c).Primary =
      f.orm.rest.any (fun v => strings.HasPrefix v primaryKeyPrefix) := by
  unfold ormOverride; simp only [if_pos h]; split_ifs <;> simp [ormFold_Primary]

theorem ormOverride_Type (f : structField) (c : dBColumn) (h : f.orm.tok0 ≠ "") :
    (ormOverride f c).Type_ =
      if ((f.orm.rest.filter isTypeToken).getLast?).getD "" ≠ ""
      then ((f.orm.rest.filter isTypeToken).getLast?).getD "" else c.Type_ := by
  unfold ormOverride; simp only [if_pos h, ormFold_Type]
  split_ifs <;> simp [ormFold_snd_Type]

/-! ### The default -/

theorem nullDefault_Default (f : structField) (c : dBColumn) :
    (nullDefault f c).Default =
      if c.Null = true ∧ f.dflt.tok0 = "" then "null" else c.Default := by
  unfold nullDefault; split_ifs <;> simp_all

theorem SliceContain_nonneg_or (l : List String) (x : String) :
    SliceContain l x = -1 ∨ 0 ≤ SliceContain l x := by
  induction l with
  | nil => left; rfl
  | cons a l ih =>
    unfold SliceContain
    by_cases h1 : a = x
    · right; simp [h1]
    · simp only [if_neg h1]
      by_cases h2 : SliceContain l x < 0
      · left; simp [h2]
      · right; simp only [if_neg h2]; omega

theorem SliceContain_neg_iff (l : List String) (x : String) :
    SliceContain l x < 0 ↔ x ∉ l := by
  induction l with
  | nil => simp [SliceContain]
  | cons a l ih =>
    unfold SliceContain
    by_cases h1 : a = x
    · simp [h1]
    · have h1' : ¬ x = a := fun h => h1 h.symm
      simp only [if_neg h1, List.mem_cons, h1', false_or]
      rw [← ih]
      rcases SliceContain_nonneg_or l x with h | h
      · simp [h]
      · have : ¬ SliceContain l x < 0 := by omega
        simp only [if_neg this]
        constructor
        · intro h'; omega
        · intro h'; omega

theorem migrateColumn_eq_some (i : Nat) (f : structField) (c : dBColumn) :
    migrateColumn i f = some c ↔
      skipped f = false ∧ c = quoteDefault (columnBeforeQuote i f) := by
  unfold migrateColumn
  by_cases h : skipped f = true
  · simp [h]
  · simp [h, eq_comm]

theorem migrateColumn_Primary (i : Nat) (f : structField) (c : dBColumn)
    (h : migrateColumn i f = some c) :
    c.Primary = if f.orm.tok0 ≠ "" then hasPrimaryToken f else decide (i = 0) := by
  obtain ⟨_, rfl⟩ := (migrateColumn_eq_some i f c).1 h
  unfold columnBeforeQuote
  rw [quoteDefault_Primary, nullDefault_Primary]
  by_cases h0 : f.orm.tok0 = ""
  · rw [ormOverride_of_empty f _ h0, customDefault_Primary, bookkeeping_Primary,
      initColumn_Primary]
    simp [h0]
  · rw [ormOverride_Primary f _ h0]; simp [h0, hasPrimaryToken]

theorem migrateColumnsFrom_cons_some {i : Nat} {f : structField} {c : dBColumn}
    (fs : List structField) (h : migrateColumn i f = some c) :
    migrateColumnsFrom i (f :: fs) = c :: migrateColumnsFrom (i + 1) fs := by
  rw [migrateColumnsFrom, h]

theorem migrateColumnsFrom_cons_none {i : Nat} {f : structField}
    (fs : List structField) (h : migrateColumn i f = none) :
    migrateColumnsFrom i (f :: fs) = migrateColumnsFrom (i + 1) fs := by
  rw [migrateColumnsFrom, h]

theorem migrateColumnsFrom_succ_no_primary (fs : List structField) (i : Nat)
    (hrest : ∀ g ∈ fs, skipped g = false → g.orm.tok0 ≠ "" → hasPrimaryToken g = false) :
    (migrateColumnsFrom (i + 1) fs).countP (fun c => c.Primary) = 0 := by
  induction fs generalizing i with
  | nil => rfl
  | cons g gs ih =>
    have ih' := ih (i + 1) (fun x hx => hrest x (List.mem_cons_of_mem _ hx))
    cases hm : migrateColumn (i + 1) g with
    | none => rw [migrateColumnsFrom_cons_none gs hm]; exact ih'
    | some c =>
      rw [migrateColumnsFrom_cons_some gs hm]
      have hp := migrateColumn_Primary (i + 1) g c hm
      have hs := ((migrateColumn_eq_some (i + 1) g c).1 hm).1
      have hc : c.Primary = false := by
        rw [hp]
        by_cases h0 : g.orm.tok0 = ""
        · simp [h0]
        · simp [h0, hrest g (List.mem_cons_self _ _) hs h0]
      simp only [List.countP_cons, hc, ih']
      simp

/-- C2, counterexample. Two tables whose column list is not empty and holds no
primary column: in the first, the field of index 0 is renamed by
`orm:"id"` and carries no `primary` token; in the second, the field of index
0 is dropped by its name `-`. -/
theorem C2_counterexample :
    (getMigrateColumns ⟨some ⟨"t"⟩, ["id", "name"], renamedIdFields⟩ =
        [{ Name := "id", Type_ := "bigint", Default := "'0'" },
         { Name := "name", Type_ := "varchar(255)", Default := "''" }] ∧
      (getMigrateColumns ⟨some ⟨"t"⟩, ["id", "name"], renamedIdFields⟩).countP
        (fun c => c.Primary) = 0) ∧
    (getMigrateColumns ⟨some ⟨"t"⟩, ["name"], hiddenFirstFields⟩ =
        [{ Name := "name", Type_ := "varchar(255)", Default := "''" }] ∧
      (getMigrateColumns ⟨some ⟨"t"⟩, ["name"], hiddenFirstFields⟩).countP
        (fun c => c.Primary) = 0) := by
  decide

/-- C2, amended. Take a table whose field of index 0 survives and either has
an empty `orm` token 0 or carries a `primary` token, and whose later fields,
where they survive with a non-empty `orm` token 0, carry no `primary` token.
Then exactly one returned column is primary, and it is the first element of
the returned list, the column of the field of index 0. -/
theorem C2_primary_first (t : queryTable) (f : structField) (fs : List structField)
    (ht : t.tableStruct = f :: fs) (hs : skipped f = false)
    (hf : f.orm.tok0 ≠ "" → hasPrimaryToken f = true)
    (hrest : ∀ g ∈ fs, skipped g = false → g.orm.tok0 ≠ "" → hasPrimaryToken g = false) :
    (getMigrateColumns t).countP (fun c => c.Primary) = 1 ∧
    ∃ c cs, getMigrateColumns t = c :: cs ∧ migrateColumn 0 f = some c ∧
      c.Primary = true ∧ cs.countP (fun c => c.Primary) = 0 := by
  have htail := migrateColumnsFrom_succ_no_primary fs 0 hrest
  have hm : migrateColumn 0 f = some (quoteDefault (columnBeforeQuote 0 f)) :=
    (migrateColumn_eq_some 0 f _).2 ⟨hs, rfl⟩
  have hp := migrateColumn_Primary 0 f _ hm
  have hc : (quoteDefault (columnBeforeQuote 0 f)).Primary = true := by
    rw [hp]
    by_cases h0 : f.orm.tok0 = ""
    · simp [h0]
    · simp [h0, hf h0]
  have hg : getMigrateColumns t =
      quoteDefault (columnBeforeQuote 0 f) :: migrateColumnsFrom (0 + 1) fs := by
    unfold getMigrateColumns; rw [ht]; exact migrateColumnsFrom_cons_some fs hm
  refine ⟨?_, _, _, hg, hm, hc, htail⟩
  rw [hg, List.countP_cons, htail]; simp [hc]

/-- C2, witness: the example table `t`. -/
theorem C2_primary_first_witness :
    (getMigrateColumns (exampleTable ["id"] false)).countP (fun c => c.Primary) = 1 ∧
      ∃ c cs, getMigrateColumns (exampleTable ["id"] false) = c :: cs ∧
        migrateColumn 0 (exampleField ⟨true, Kind.Int64, Kind.Invalid, false, false⟩ "id") =
          some c ∧ c.Primary = true ∧ cs.countP (fun c => c.Primary) = 0 :=
  C2_primary_first (exampleTable ["id"] false) _ _ rfl (by decide) (by decide) (by decide)

theorem quoteDefault_Default (c : dBColumn) :
    (quoteDefault c).Default =
      if c.Default = "" ∨ strings.ToLower c.Default ∉ definedDefault
      then "'" ++ c.Default ++ "'" else c.Default := by
  unfold quoteDefault
  simp only [SliceContain_neg_iff]
  split_ifs <;> rfl

theorem bookkeeping_Default_created (c : dBColumn) (h : c.Name = createdAtColumn) :
    (bookkeeping c).Default = "CURRENT_TIMESTAMP" := by
  unfold bookkeeping; simp only [if_pos h]

theorem bookkeeping_Default_updated (c : dBColumn) (h : c.Name = updatedAtColumn) :
    (bookkeeping c).Default = "CURRENT_TIMESTAMP ON UPDATE CURRENT_TIMESTAMP" := by
  have h1 : ¬ c.Name = createdAtColumn := by rw [h]; decide
  unfold bookkeeping; simp only [if_neg h1, if_pos h]

theorem bookkeeping_Default_deleted (c : dBColumn) (h : c.Name = deletedAtColumn) :
    (bookkeeping c).Default = "Null" := by
  have h1 : ¬ c.Name = createdAtColumn := by rw [h]; decide
  have h2 : ¬ c.Name = updatedAtColumn := by rw [h]; decide
  unfold bookkeeping; simp only [if_neg h1, if_neg h2, if_pos h]

/-- The default of a resolved column when the field has no `default` tag and
the name stage set `d`, a literal that is never quoted. -/
theorem default_of_bookkeeping (i : Nat) (f : structField) (d : String)
    (hd : (bookkeeping (initColumn i f)).Default = d) (ht : f.dflt.tok0 = "")
    (hq : ¬ (d = "" ∨ strings.ToLower d ∉ definedDefault)) :
    (quoteDefault (columnBeforeQuote i f)).Default =
      if (quoteDefault (columnBeforeQuote i f)).Null = true then "null" else d := by
  rw [quoteDefault_Default, quoteDefault_Null]
  unfold columnBeforeQuote
  rw [nullDefault_Null, nullDefault_Default, ormOverride_Default,
    customDefault_Default_empty f _ ht, hd]
  by_cases hn : (ormOverride f (customDefault f (bookkeeping (initColumn i f)))).Null = true
  · have : ¬ (("null" : String) = "" ∨ strings.ToLower "null" ∉ definedDefault) := by decide
    simp only [hn, ht, and_self, if_true, if_neg this]
  · simp only [hn, Bool.false_eq_true, false_and, if_false]
    rw [if_neg hq]

/-- C3, counterexample. A field named `created_at` with a `default` tag, at
index 1: the returned default is the quoted tag, not `CURRENT_TIMESTAMP`. -/
theorem C3_counterexample :
    migrateColumn 1 createdAtWithDefault =
      some { Name := "created_at", Type_ := "timestamp",
             Default := "'2000-01-01 00:00:00'" } := by
  decide

/-- C3, amended. For a surviving field whose column name is a bookkeeping name,
whatever its kind: the type is `timestamp` unless `orm` token 0 is non-empty
and the last type token is non-empty; with an empty `default` token 0 the
default is `null` when the returned column is nullable and otherwise
`CURRENT_TIMESTAMP` for `created_at`, `CURRENT_TIMESTAMP ON UPDATE
CURRENT_TIMESTAMP` for `updated_at` and `Null` for `deleted_at`; and
`deleted_at` is nullable whenever `orm` token 0 is empty. -/
theorem C3_bookkeeping_names (i : Nat) (f : structField) (c : dBColumn)
    (h : migrateColumn i f = some c) :
    ((c.Name = createdAtColumn ∨ c.Name = updatedAtColumn ∨ c.Name = deletedAtColumn) →
      (f.orm.tok0 = "" ∨ ((f.orm.rest.filter isTypeToken).getLast?).getD "" = "") →
      c.Type_ = "timestamp") ∧
    (c.Name = createdAtColumn → f.dflt.tok0 = "" →
      c.Default = if c.Null = true then "null" else "CURRENT_TIMESTAMP") ∧
    (c.Name = updatedAtColumn → f.dflt.tok0 = "" →
      c.Default =
        if c.Null = true then "null" else "CURRENT_TIMESTAMP ON UPDATE CURRENT_TIMESTAMP") ∧
    (c.Name = deletedAtColumn → f.dflt.tok0 = "" →
      c.Default = if c.Null = true then "null" else "Null") ∧
    (c.Name = deletedAtColumn → f.orm.tok0 = "" → c.Null = true) := by
  obtain ⟨_, rfl⟩ := (migrateColumn_eq_some i f c).1 h
  have hname : (quoteDefault (columnBeforeQuote i f)).Name = (initColumn i f).Name := by
    unfold columnBeforeQuote
    rw [quoteDefault_Name, nullDefault_Name, ormOverride_Name, customDefault_Name,
      bookkeeping_Name]
  rw [hname]
  refine ⟨?_, ?_, ?_, ?_, ?_⟩
  · intro hn ho
    unfold columnBeforeQuote
    rw [quoteDefault_Type, nullDefault_Type]
    have hb : (customDefault f (bookkeeping (initColumn i f))).Type_ = "timestamp" := by
      rw [customDefault_Type, bookkeeping_Type, if_pos hn]
    by_cases h0 : f.orm.tok0 = ""
    · rw [ormOverride_of_empty f _ h0, hb]
    · rw [ormOverride_Type f _ h0, hb]
      rcases ho with ho | ho
      · exact absurd ho h0
      · rw [if_neg (not_not.2 ho)]
  · intro hn ht
    exact default_of_bookkeeping i f _ (bookkeeping_Default_created _ hn) ht (by decide)
  · intro hn ht
    exact default_of_bookkeeping i f _ (bookkeeping_Default_updated _ hn) ht (by decide)
  · intro hn ht
    exact default_of_bookkeeping i f _ (bookkeeping_Default_deleted _ hn) ht (by decide)
  · intro hn h0
    unfold columnBeforeQuote
    rw [quoteDefault_Null, nullDefault_Null, ormOverride_of_empty f _ h0, customDefault_Null,
      bookkeeping_Null, decide_eq_true hn, Bool.or_true]

/-- C3, witness: the field `created_at` of the example table. -/
theorem C3_bookkeeping_names_witness :
    (exampleColumns.get ⟨2, by decide⟩).Type_ = "timestamp" ∧
    (exampleColumns.get ⟨2, by decide⟩).Default = "CURRENT_TIMESTAMP" := by
  have h := C3_bookkeeping_names 2
    (exampleField ⟨true, Kind.Struct, Kind.Invalid, false, true⟩ "created_at")
    (exampleColumns.get ⟨2, by decide⟩) (by decide)
  exact ⟨h.1 (Or.inl (by decide)) (Or.inl rfl), h.2.1 (by decide) rfl⟩

theorem mem_definedDefault (s : String) :
    s ∈ definedDefault ↔
      (s = "null" ∨ s = "current_timestamp" ∨
        s = "current_timestamp on update current_timestamp") := by
  simp [definedDefault]

/-- C4. For a surviving field, with `d` the default as it stands before the
quoting step: a non-empty `d` whose lower case is `null`, `current_timestamp`
or `current_timestamp on update current_timestamp` is returned unchanged; any
other non-empty `d` is returned between single quotes; an empty `d` is
returned as the two quotes. -/
theorem C4_default_quoting (i : Nat) (f : structField) (c : dBColumn)
    (h : migrateColumn i f = some c) :
    ((columnBeforeQuote i f).Default ≠ "" →
      (strings.ToLower (columnBeforeQuote i f).Default = "null" ∨
        strings.ToLower (columnBeforeQuote i f).Default = "current_timestamp" ∨
        strings.ToLower (columnBeforeQuote i f).Default =
          "current_timestamp on update current_timestamp") →
      c.Default = (columnBeforeQuote i f).Default) ∧
    ((columnBeforeQuote i f).Default ≠ "" →
      ¬ (strings.ToLower (columnBeforeQuote i f).Default = "null" ∨
        strings.ToLower (columnBeforeQuote i f).Default = "current_timestamp" ∨
        strings.ToLower (columnBeforeQuote i f).Default =
          "current_timestamp on update current_timestamp") →
      c.Default = "'" ++ (columnBeforeQuote i f).Default ++ "'") ∧
    ((columnBeforeQuote i f).Default = "" → c.Default = "''") := by
  obtain ⟨_, rfl⟩ := (migrateColumn_eq_some i f c).1 h
  rw [quoteDefault_Default]
  refine ⟨?_, ?_, ?_⟩
  · intro hne hl
    rw [if_neg]
    rintro (h1 | h2)
    · exact hne h1
    · exact h2 ((mem_definedDefault _).2 hl)
  · intro _ hl
    rw [if_pos]
    exact Or.inr (fun hm => hl ((mem_definedDefault _).1 hm))
  · intro he
    rw [if_pos (Or.inl he), he]
    decide

/-- C4, witness: the field `name` of the example table, whose default is empty
before quoting. -/
theorem C4_default_quoting_witness :
    (exampleColumns.get ⟨1, by decide⟩).Default = "''" :=
  (C4_default_quoting 1
    (exampleField ⟨true, Kind.String, Kind.Invalid, false, false⟩ "name")
    (exampleColumns.get ⟨1, by decide⟩) (by decide)).2.2 (by decide)

theorem ToLower_ne_empty (s t : String) (h : strings.ToLower s = t) (ht : t ≠ "") :
    s ≠ "" := by
  intro hs
  apply ht
  rw [← h, hs]
  rfl

theorem beforeQuote_Default_custom (i : Nat) (f : structField) (h : f.dflt.tok0 ≠ "") :
    (columnBeforeQuote i f).Default =
      (customDefault f (bookkeeping (initColumn i f))).Default := by
  unfold columnBeforeQuote
  rw [nullDefault_Default, ormOverride_Default]
  simp [h]

/-- The `default` token `true` or `false`, in some letter casing, on the kind
that `reflect` reports for the field (lines 159-162, `Invalid` behind a nil
pointer): if that kind is boolean the default is `1` or `0` before quoting and
is returned quoted; if it is not, the token itself is kept and returned
quoted. -/
theorem boolDefault_on_reported_kind (i : Nat) (f : structField) (c : dBColumn)
    (h : migrateColumn i f = some c) :
    (fieldKind f = Kind.Bool → strings.ToLower f.dflt.tok0 = "true" →
      (columnBeforeQuote i f).Default = "1" ∧ c.Default = "'1'") ∧
    (fieldKind f = Kind.Bool → strings.ToLower f.dflt.tok0 = "false" →
      (columnBeforeQuote i f).Default = "0" ∧ c.Default = "'0'") ∧
    (fieldKind f ≠ Kind.Bool →
      (strings.ToLower f.dflt.tok0 = "true" ∨ strings.ToLower f.dflt.tok0 = "false") →
      (columnBeforeQuote i f).Default = f.dflt.tok0 ∧
      c.Default = "'" ++ f.dflt.tok0 ++ "'") := by
  obtain ⟨_, rfl⟩ := (migrateColumn_eq_some i f c).1 h
  rw [quoteDefault_Default]
  refine ⟨?_, ?_, ?_⟩
  · intro hk hl
    have hne := ToLower_ne_empty _ _ hl (by decide)
    have hd : (columnBeforeQuote i f).Default = "1" := by
      rw [beforeQuote_Default_custom i f hne]
      unfold customDefault
      simp only [ne_eq, hne, not_false_eq_true, if_true, hk, hl]
    rw [hd]
    exact ⟨rfl, by decide⟩
  · intro hk hl
    have hne := ToLower_ne_empty _ _ hl (by decide)
    have hd : (columnBeforeQuote i f).Default = "0" := by
      rw [beforeQuote_Default_custom i f hne]
      unfold customDefault
      have h1 : ¬ strings.ToLower f.dflt.tok0 = "true" := by rw [hl]; decide
      simp only [ne_eq, hne, not_false_eq_true, if_true, hk, if_neg h1, if_pos hl]
    rw [hd]
    exact ⟨rfl, by decide⟩
  · intro hk hl
    have hne : f.dflt.tok0 ≠ "" := by
      rcases hl with hl | hl
      · exact ToLower_ne_empty _ _ hl (by decide)
      · exact ToLower_ne_empty _ _ hl (by decide)
    have hd : (columnBeforeQuote i f).Default = f.dflt.tok0 := by
      rw [beforeQuote_Default_custom i f hne]
      unfold customDefault
      simp only [ne_eq, hne, not_false_eq_true, if_true, if_neg hk]
    rw [hd]
    refine ⟨rfl, ?_⟩
    rw [if_pos]
    right
    rcases hl with hl | hl <;> rw [hl] <;> decide

/-- C5, the code at the failing input. A field `active *bool` tagged
`default:"True"`: with a pointer that is not nil the default is normalised to
`'1'`; with a nil pointer, as in a zero struct, the kind read at lines 159-162
is `Invalid`, the token is kept as `'True'` and the type is `varchar(255)`. -/
theorem C5_nil_bool_pointer :
    migrateColumn 1 (boolPtrWithDefault false) =
      some { Name := "active", Type_ := "tinyint", Null := true, Default := "'1'" } ∧
    migrateColumn 1 (boolPtrWithDefault true) =
      some { Name := "active", Type_ := "varchar(255)", Null := true,
             Default := "'True'" } := by
  decide

/-- C6, counterexample. With the `orm` tokens `name`, `varchar(10)` and an empty
token, the last non-empty type token is `varchar(10)`, yet the returned type
is the one computed before, `varchar(255)`. -/
theorem C6_counterexample :
    ((typeThenEmptyToken.orm.rest.filter (fun v => isTypeToken v && v != "")).getLast? =
      some "varchar(10)") ∧
    migrateColumn 1 typeThenEmptyToken =
      some { Name := "name", Type_ := "varchar(255)", Default := "''" } := by
  decide

/-- C6, amended. For a surviving field with a non-empty `orm` token 0, the
returned column is nullable iff a token of index 1 and up is `null`,
auto-increment iff one is `auto_increment`, primary iff one begins with
`primary`, and its type is the last type token when there is one and it is not
empty, and otherwise the type computed before (line 201). With an empty `orm`
token 0 the four values are those computed before. -/
theorem C6_orm_override (i : Nat) (f : structField) (c : dBColumn)
    (h : migrateColumn i f = some c) :
    (f.orm.tok0 ≠ "" →
      c.Null = f.orm.rest.any (fun v => decide (v = "null")) ∧
      c.AutoIncrement = f.orm.rest.any (fun v => decide (v = "auto_increment")) ∧
      c.Primary = f.orm.rest.any (fun v => strings.HasPrefix v "primary") ∧
      c.Type_ =
        match (f.orm.rest.filter isTypeToken).getLast? with
        | some v => if v ≠ "" then v else (customDefault f (bookkeeping (initColumn i f))).Type_
        | none => (customDefault f (bookkeeping (initColumn i f))).Type_) ∧
    (f.orm.tok0 = "" →
      c.Null = (customDefault f (bookkeeping (initColumn i f))).Null ∧
      c.AutoIncrement = (customDefault f (bookkeeping (initColumn i f))).AutoIncrement ∧
      c.Primary = (customDefault f (bookkeeping (initColumn i f))).Primary ∧
      c.Type_ = (customDefault f (bookkeeping (initColumn i f))).Type_) := by
  obtain ⟨_, rfl⟩ := (migrateColumn_eq_some i f c).1 h
  unfold columnBeforeQuote
  rw [quoteDefault_Null, quoteDefault_AutoIncrement, quoteDefault_Primary, quoteDefault_Type,
    nullDefault_Null, nullDefault_AutoIncrement, nullDefault_Primary, nullDefault_Type]
  constructor
  · intro h0
    refine ⟨ormOverride_Null f _ h0, ormOverride_AutoIncrement f _ h0,
      ormOverride_Primary f _ h0, ?_⟩
    rw [ormOverride_Type f _ h0]
    cases (f.orm.rest.filter isTypeToken).getLast? with
    | none => simp
    | some v => simp
  · intro h0
    rw [ormOverride_of_empty f _ h0]
    exact ⟨rfl, rfl, rfl, rfl⟩

/-- C6, witness: an `id` field tagged `orm:"id,primary,auto_increment,bigint(20)"`,
declared second. -/
theorem C6_orm_override_witness :
    (quoteDefault (columnBeforeQuote 1 taggedIdField)).Null = false ∧
    (quoteDefault (columnBeforeQuote 1 taggedIdField)).AutoIncrement = true ∧
    (quoteDefault (columnBeforeQuote 1 taggedIdField)).Primary = true ∧
    (quoteDefault (columnBeforeQuote 1 taggedIdField)).Type_ = "bigint(20)" :=
  (C6_orm_override 1 taggedIdField (quoteDefault (columnBeforeQuote 1 taggedIdField))
    (by decide)).1 (by decide)

theorem migrateColumnsFrom_append (pre post : List structField) (i : Nat) :
    migrateColumnsFrom i (pre ++ post) =
      migrateColumnsFrom i pre ++ migrateColumnsFrom (i + pre.length) post := by
  induction pre generalizing i with
  | nil => simp [migrateColumnsFrom]
  | cons g gs ih =>
    have e : i + (g :: gs).length = i + 1 + gs.length := by simp; omega
    rw [List.cons_append, e]
    cases hm : migrateColumn i g with
    | none =>
      rw [migrateColumnsFrom_cons_none _ hm, migrateColumnsFrom_cons_none _ hm, ih]
    | some c =>
      rw [migrateColumnsFrom_cons_some _ hm, migrateColumnsFrom_cons_some _ hm, ih,
        List.cons_append]

theorem getMigrateColumns_at (t : queryTable) (pre post : List structField)
    (f : structField) (ht : t.tableStruct = pre ++ f :: post) :
    getMigrateColumns t =
      migrateColumnsFrom 0 pre ++ migrateColumnsFrom pre.length (f :: post) := by
  unfold getMigrateColumns
  rw [ht, migrateColumnsFrom_append, Nat.zero_add]

/-- For a settable field at any place of the table, the column name is `orm`
token 0 when that is not empty and `json` token 0 otherwise. If that name is
neither empty nor `-` and `reflect` does not report a pointer whose element is
a pointer (lines 160-163; a nil pointer reports `Invalid` for its element),
the result holds one column for the field, of that name, between the columns
of the fields before and after it; otherwise it holds none. -/
theorem column_of_field_on_reported_kind (t : queryTable) (pre post : List structField)
    (f : structField) (name : String) (ht : t.tableStruct = pre ++ f :: post)
    (hset : f.val.CanSet = true)
    (hname : name = if f.orm.tok0 ≠ "" then f.orm.tok0 else f.json.tok0) :
    ((name ≠ "" ∧ name ≠ "-" ∧ ¬ (f.val.Kind = Kind.Ptr ∧ f.val.ElemKind = Kind.Ptr)) →
      ∃ c, c.Name = name ∧ migrateColumn pre.length f = some c ∧
        getMigrateColumns t =
          migrateColumnsFrom 0 pre ++ c :: migrateColumnsFrom (pre.length + 1) post) ∧
    (¬ (name ≠ "" ∧ name ≠ "-" ∧ ¬ (f.val.Kind = Kind.Ptr ∧ f.val.ElemKind = Kind.Ptr)) →
      migrateColumn pre.length f = none ∧
      getMigrateColumns t =
        migrateColumnsFrom 0 pre ++ migrateColumnsFrom (pre.length + 1) post) ∧
    (f.orm.tok0 = "" → f.json.tok0 = "" →
      getMigrateColumns t =
        migrateColumnsFrom 0 pre ++ migrateColumnsFrom (pre.length + 1) post) := by
  have hcn : columnName f = name := by rw [hname]; rfl
  have hskip : skipped f = true ↔
      ¬ (name ≠ "" ∧ name ≠ "-" ∧ ¬ (f.val.Kind = Kind.Ptr ∧ f.val.ElemKind = Kind.Ptr)) := by
    unfold skipped
    rw [hcn]
    simp only [hset, decide_eq_true_eq]
    tauto
  have hdrop : ¬ (name ≠ "" ∧ name ≠ "-" ∧
      ¬ (f.val.Kind = Kind.Ptr ∧ f.val.ElemKind = Kind.Ptr)) →
      migrateColumn pre.length f = none ∧
      getMigrateColumns t =
        migrateColumnsFrom 0 pre ++ migrateColumnsFrom (pre.length + 1) post := by
    intro hn
    have hm : migrateColumn pre.length f = none := by
      unfold migrateColumn; rw [if_pos (hskip.2 hn)]
    exact ⟨hm, by rw [getMigrateColumns_at t pre post f ht, migrateColumnsFrom_cons_none _ hm]⟩
  refine ⟨?_, hdrop, ?_⟩
  · intro hok
    have hs : skipped f = false := by
      cases hsk : skipped f with
      | false => rfl
      | true => exact absurd hok (hskip.1 hsk)
    have hm : migrateColumn pre.length f =
        some (quoteDefault (columnBeforeQuote pre.length f)) :=
      (migrateColumn_eq_some _ f _).2 ⟨hs, rfl⟩
    refine ⟨_, ?_, hm, ?_⟩
    · unfold columnBeforeQuote
      rw [quoteDefault_Name, nullDefault_Name, ormOverride_Name, customDefault_Name,
        bookkeeping_Name, initColumn_Name, hcn]
    · rw [getMigrateColumns_at t pre post f ht, migrateColumnsFrom_cons_some _ hm]
  · intro h1 h2
    refine (hdrop ?_).2
    rw [hname]
    simp [h1, h2]

/-- C7, the code at the failing input. A settable field `parent **T` named
`parent`: with an outer pointer that is not nil the field is dropped; with a
nil outer pointer, as in a zero struct, `Elem().Kind()` at line 162 is
`Invalid`, the field is not dropped and yields the column `parent`. -/
theorem C7_nil_pointer_to_pointer_kept :
    migrateColumn 1 (ptrPtrNamedField false) = none ∧
    migrateColumn 1 (ptrPtrNamedField true) =
      some { Name := "parent", Type_ := "varchar(255)", Null := true,
             Default := "null" } := by
  decide

/-- A field for which `reflect` reports a pointer whose element is a pointer
(not a nil pointer, then) yields no column, at any index and whatever its
tags; the result for the table is the columns of the fields before it followed
by the columns of the fields after it, each resolved at its own index of
declaration. -/
theorem reported_ptrPtr_skipped (t : queryTable) (pre post : List structField)
    (f : structField) (ht : t.tableStruct = pre ++ f :: post)
    (hpp : f.val.Kind = Kind.Ptr ∧ f.val.ElemKind = Kind.Ptr) :
    (∀ i, migrateColumn i f = none) ∧
    getMigrateColumns t =
      migrateColumnsFrom 0 pre ++ migrateColumnsFrom (pre.length + 1) post := by
  have hnone : ∀ i, migrateColumn i f = none := by
    intro i
    unfold migrateColumn
    have : skipped f = true := by unfold skipped; simp [hpp.1, hpp.2]
    rw [if_pos this]
  exact ⟨hnone, by
    rw [getMigrateColumns_at t pre post f ht, migrateColumnsFrom_cons_none _ (hnone _)]⟩

set_option maxRecDepth 100000 in
/-- C8, the code at the failing input. The four fields of the example table
followed by a field `parent **T` tagged `orm:"parent,primary"`: with an outer
pointer that is not nil the columns are those of the example; with a nil outer
pointer, as in a zero struct, the field is not skipped and the result holds a
fifth column `parent`, flagged primary. -/
theorem C8_nil_pointer_to_pointer_column :
    getMigrateColumns ⟨some ⟨"t"⟩, ["id"], exampleFields true ++ [ptrPtrField false]⟩ =
      exampleColumns ∧
    getMigrateColumns ⟨some ⟨"t"⟩, ["id"], exampleFields true ++ [ptrPtrField true]⟩ =
      exampleColumns ++
        [{ Name := "parent", Type_ := "varchar(255)", Primary := true, Default := "''" }] := by
  decide

/-- With `k` the kind that `reflect` reports after lines 258-261 (the kind of
`Elem()` for a pointer, `Invalid` when the pointer is nil), `getTypeAndDefault`
gives the rows of the Type Mapper table for the integer, boolean and string
kinds; for any other `k` it gives `timestamp` with an empty default when the
value is a `time.Time` or a `*time.Time`, and `varchar(255)` with an empty
default when it is neither. A pointer whose element is reported with the kind
of a value gives the result of that value, a pointer to time being paired with
a time value. -/
theorem typeMapper_on_reported_kind (val : Value) (k : Kind)
    (hk : k = if val.Kind = Kind.Ptr then val.ElemKind else val.Kind) :
    ((k = Kind.Bool ∨ k = Kind.Int8) → getTypeAndDefault val = ("tinyint", "0")) ∧
    (k = Kind.Int16 → getTypeAndDefault val = ("smallint", "0")) ∧
    ((k = Kind.Int ∨ k = Kind.Int32) → getTypeAndDefault val = ("int", "0")) ∧
    (k = Kind.Int64 → getTypeAndDefault val = ("bigint", "0")) ∧
    (k = Kind.Uint8 → getTypeAndDefault val = ("tinyint unsigned", "0")) ∧
    (k = Kind.Uint16 → getTypeAndDefault val = ("smallint unsigned", "0")) ∧
    ((k = Kind.Uint ∨ k = Kind.Uint32) → getTypeAndDefault val = ("int unsigned", "0")) ∧
    (k = Kind.Uint64 → getTypeAndDefault val = ("bigint unsigned", "0")) ∧
    (k = Kind.String → getTypeAndDefault val = ("varchar(255)", "")) ∧
    (k ∉ mappedKinds → (val.IsTimePtr = true ∨ val.IsTime = true) →
      getTypeAndDefault val = ("timestamp", "")) ∧
    (k ∉ mappedKinds → val.IsTimePtr = false → val.IsTime = false →
      getTypeAndDefault val = ("varchar(255)", "")) ∧
    (∀ w : Value, val.Kind ≠ Kind.Ptr → w.Kind = Kind.Ptr → w.ElemKind = val.Kind →
      ((w.IsTimePtr = true ∨ w.IsTime = true) ↔ (val.IsTimePtr = true ∨ val.IsTime = true)) →
      getTypeAndDefault w = getTypeAndDefault val) := by
  unfold getTypeAndDefault
  simp only [← hk]
  refine ⟨?_, ?_, ?_, ?_, ?_, ?_, ?_, ?_, ?_, ?_, ?_, ?_⟩
  · rintro (h | h) <;> rw [h]
  · intro h; rw [h]
  · rintro (h | h) <;> rw [h]
  · intro h; rw [h]
  · intro h; rw [h]
  · intro h; rw [h]
  · rintro (h | h) <;> rw [h]
  · intro h; rw [h]
  · intro h; rw [h]
  · intro hn ht
    have hts : (if val.IsTimePtr = true then (("timestamp", "") : String × String)
        else if val.IsTime = true then ("timestamp", "") else ("varchar(255)", "")) =
        ("timestamp", "") := by
      rcases ht with ht | ht
      · rw [if_pos ht]
      · by_cases h1 : val.IsTimePtr = true
        · rw [if_pos h1]
        · rw [if_neg h1, if_pos ht]
    cases k <;> first | exact hts | exact absurd (by decide) hn
  · intro hn h1 h2
    have hvc : (if val.IsTimePtr = true then (("timestamp", "") : String × String)
        else if val.IsTime = true then ("timestamp", "") else ("varchar(255)", "")) =
        ("varchar(255)", "") := by
      rw [h1, h2]; rfl
    cases k <;> first | exact hvc | exact absurd (by decide) hn
  · intro w hv hw he hiff
    have hflag : (if w.IsTimePtr = true then (("timestamp", "") : String × String)
        else if w.IsTime = true then ("timestamp", "") else ("varchar(255)", "")) =
        (if val.IsTimePtr = true then (("timestamp", "") : String × String)
        else if val.IsTime = true then ("timestamp", "") else ("varchar(255)", "")) := by
      by_cases hw' : w.IsTimePtr = true ∨ w.IsTime = true
      · have hv' := hiff.1 hw'
        have e1 : ∀ a b : Bool, (a = true ∨ b = true) →
            (if a = true then (("timestamp", "") : String × String)
              else if b = true then ("timestamp", "") else ("varchar(255)", "")) =
            ("timestamp", "") := by
          intro a b hab; cases a <;> cases b <;> simp at hab ⊢
        rw [e1 _ _ hw', e1 _ _ hv']
      · have hv' : ¬ (val.IsTimePtr = true ∨ val.IsTime = true) := fun h => hw' (hiff.2 h)
        have e2 : ∀ a b : Bool, ¬ (a = true ∨ b = true) →
            (if a = true then (("timestamp", "") : String × String)
              else if b = true then ("timestamp", "") else ("varchar(255)", "")) =
            ("varchar(255)", "") := by
          intro a b hab; cases a <;> cases b <;> simp at hab ⊢
        rw [e2 _ _ hw', e2 _ _ hv']
    have hkv : k = val.Kind := by rw [hk, if_neg hv]
    simp only [hw, he, if_true, ← hkv]
    cases k <;> first | rfl | exact hflag

/-- C9, the code at the failing input. A field `int64` and a field `*int64`
whose pointer is not nil both give `bigint` with the default `0`; a field
`*int64` whose pointer is nil, as in a zero struct, gives `varchar(255)` with
an empty default, and so does a nil `*bool`; a nil `*time.Time`, found by the
type assertion of line 290, still gives `timestamp`. -/
theorem C9_nil_pointer_type :
    getTypeAndDefault (fieldValue (GoType.plain Kind.Int64) false) = ("bigint", "0") ∧
    getTypeAndDefault (fieldValue (GoType.ptr (GoType.plain Kind.Int64)) false) =
      ("bigint", "0") ∧
    getTypeAndDefault (fieldValue (GoType.ptr (GoType.plain Kind.Int64)) true) =
      ("varchar(255)", "") ∧
    getTypeAndDefault (fieldValue (GoType.ptr (GoType.plain Kind.Bool)) true) =
      ("varchar(255)", "") ∧
    getTypeAndDefault (fieldValue (GoType.ptr GoType.time) true) = ("timestamp", "") := by
  decide

theorem columnWords_eq_clauseWords (v : dBColumn) : columnWords v = clauseWords v := by
  have hc : ("comment " ++ "'" : String) = "comment '" := by decide
  unfold columnWords clauseWords
  simp only [hc]
  cases v.Null <;> cases v.AutoIncrement <;>
    by_cases hd : v.Default = "" <;> by_cases hm : v.Comment = "" <;> simp [hd, hm]

theorem genColumn_ret (s : genState) (v : dBColumn) :
    (genColumn s v).ret = s.ret ++ [strings.Join (columnWords v) " "] := by
  unfold genColumn
  simp only []
  split_ifs <;> rfl

theorem genFold_ret (cols : List dBColumn) (s : genState) :
    (cols.foldl genColumn s).ret =
      s.ret ++ cols.map (fun v => strings.Join (columnWords v) " ") := by
  induction cols generalizing s with
  | nil => simp
  | cons v vs ih => simp [List.foldl, ih, genColumn_ret]

theorem generateColumnStrings_clauses (ru ri : RangeOrder) (cols : List dBColumn) :
    ∃ keys, generateColumnStrings ru ri cols =
      cols.map (fun v => strings.Join (clauseWords v) " ") ++ keys := by
  unfold generateColumnStrings genFinish
  simp only [genFold_ret, columnWords_eq_clauseWords]
  split_ifs
  · exact ⟨_, by simp only [List.append_assoc, List.nil_append]; rfl⟩
  · exact ⟨_, by simp only [List.append_assoc, List.nil_append]; rfl⟩

/-- C10. The output of `generateColumnStrings` begins with one string per
column, in column order: string `i` is the words of column `i` as the
specification lists them, joined by spaces. For an auto-increment column the
words are the name, the type, the null word, `auto_increment` and the comment
if there is one: nothing of its `Default`. -/
theorem C10_column_clauses (ru ri : RangeOrder) (cols : List dBColumn) :
    cols.length ≤ (generateColumnStrings ru ri cols).length ∧
    (∀ (i : Nat) (v : dBColumn), cols[i]? = some v →
      (generateColumnStrings ru ri cols)[i]? = some (strings.Join (clauseWords v) " ")) ∧
    (∀ (i : Nat) (v : dBColumn), cols[i]? = some v → v.AutoIncrement = true →
      (generateColumnStrings ru ri cols)[i]? =
        some (strings.Join
          (["`" ++ v.Name ++ "`", v.Type_, if v.Null then "null" else "not null",
            "auto_increment"] ++
            (if v.Comment ≠ "" then ["comment '" ++ v.Comment ++ "'"] else [])) " ")) := by
  obtain ⟨keys, hk⟩ := generateColumnStrings_clauses ru ri cols
  have hget : ∀ (i : Nat) (v : dBColumn), cols[i]? = some v →
      (generateColumnStrings ru ri cols)[i]? = some (strings.Join (clauseWords v) " ") := by
    intro i v hv
    have hi : i < cols.length := by
      rcases Nat.lt_or_ge i cols.length with h | h
      · exact h
      · rw [List.getElem?_eq_none h] at hv; cases hv
    rw [hk, List.getElem?_append_left (by simpa using hi), List.getElem?_map, hv]
    rfl
  refine ⟨?_, hget, ?_⟩
  · rw [hk]; simp
  · intro i v hv ha
    rw [hget i v hv]
    unfold clauseWords
    simp [ha]

/-- C10, witness: an auto-increment column that holds a default. -/
theorem C10_column_clauses_witness :
    (generateColumnStrings RangeOrder.insertion RangeOrder.insertion [autoIncrementColumn])[0]? =
      some "`id` bigint not null auto_increment comment 'key'" :=
  (C10_column_clauses RangeOrder.insertion RangeOrder.insertion [autoIncrementColumn]).2.2
    0 autoIncrementColumn rfl rfl

/-! ### The loop of `generateColumnStrings`, one variable at a time -/

theorem primaryKey_text (n : String) :
    "primary key (" ++ ("`" ++ n ++ "`") ++ ")" = "primary key (`" ++ n ++ "`)" := by
  apply String.ext
  simp only [String.data_append, List.append_assoc]
  rfl

theorem genColumn_primaryStr (s : genState) (v : dBColumn) :
    (genColumn s v).primaryStr =
      if v.Primary = true then "primary key (`" ++ v.Name ++ "`)" else s.primaryStr := by
  unfold genColumn
  simp only [primaryKey_text]
  split_ifs <;> rfl

theorem genColumn_uniqueColumns (s : genState) (v : dBColumn) :
    (genColumn s v).uniqueColumns = s.uniqueColumns ++ simpleUniqueClauses [v] := by
  unfold genColumn simpleUniqueClauses
  cases hp : v.Primary <;> cases hu : v.Unique <;> cases hi : v.Index <;> simp [hp, hu, hi]

theorem genColumn_indexColumns (s : genState) (v : dBColumn) :
    (genColumn s v).indexColumns = s.indexColumns ++ simpleIndexClauses [v] := by
  unfold genColumn simpleIndexClauses
  cases hp : v.Primary <;> cases hu : v.Unique <;> cases hi : v.Index <;> simp [hp, hu, hi]

theorem genColumn_uniqueComps (s : genState) (v : dBColumn) :
    (genColumn s v).uniqueComps =
      (groupInsertions (fun c => c.Uniques) [v]).foldl (fun m p => mapAppend m p.1 p.2)
        s.uniqueComps := by
  unfold genColumn groupInsertions
  simp only [List.flatMap_cons, List.flatMap_nil, List.append_nil, List.foldl_map]
  split_ifs <;> rfl

theorem genColumn_indexComps (s : genState) (v : dBColumn) :
    (genColumn s v).indexComps =
      (groupInsertions (fun c => c.Indexs) [v]).foldl (fun m p => mapAppend m p.1 p.2)
        s.indexComps := by
  unfold genColumn groupInsertions
  simp only [List.flatMap_cons, List.flatMap_nil, List.append_nil, List.foldl_map]
  split_ifs <;> rfl

theorem simpleUniqueClauses_cons (v : dBColumn) (vs : List dBColumn) :
    simpleUniqueClauses (v :: vs) = simpleUniqueClauses [v] ++ simpleUniqueClauses vs := by
  unfold simpleUniqueClauses
  rw [← List.map_append, ← List.filter_append]; rfl

theorem simpleIndexClauses_cons (v : dBColumn) (vs : List dBColumn) :
    simpleIndexClauses (v :: vs) = simpleIndexClauses [v] ++ simpleIndexClauses vs := by
  unfold simpleIndexClauses
  rw [← List.map_append, ← List.filter_append]; rfl

theorem groupInsertions_cons (sel : dBColumn → List String) (v : dBColumn)
    (vs : List dBColumn) :
    groupInsertions sel (v :: vs) = groupInsertions sel [v] ++ groupInsertions sel vs := by
  unfold groupInsertions
  simp

theorem genFold_primaryStr (cols : List dBColumn) (s : genState) :
    (cols.foldl genColumn s).primaryStr =
      match (cols.filter (fun c => c.Primary)).getLast? with
      | none => s.primaryStr
      | some c => "primary key (`" ++ c.Name ++ "`)" := by
  induction cols generalizing s with
  | nil => rfl
  | cons v vs ih =>
    rw [List.foldl_cons, ih, genColumn_primaryStr, List.filter_cons]
    by_cases hp : v.Primary = true
    · simp only [hp, if_true]
      rw [List.getLast?_cons]
      cases (vs.filter (fun c => c.Primary)).getLast? <;> rfl
    · simp only [hp]
      rfl

theorem genFold_uniqueColumns (cols : List dBColumn) (s : genState) :
    (cols.foldl genColumn s).uniqueColumns = s.uniqueColumns ++ simpleUniqueClauses cols := by
  induction cols generalizing s with
  | nil => simp [simpleUniqueClauses]
  | cons v vs ih =>
    rw [List.foldl_cons, ih, genColumn_uniqueColumns, simpleUniqueClauses_cons v vs,
      List.append_assoc]

theorem genFold_indexColumns (cols : List dBColumn) (s : genState) :
    (cols.foldl genColumn s).indexColumns = s.indexColumns ++ simpleIndexClauses cols := by
  induction cols generalizing s with
  | nil => simp [simpleIndexClauses]
  | cons v vs ih =>
    rw [List.foldl_cons, ih, genColumn_indexColumns, simpleIndexClauses_cons v vs,
      List.append_assoc]

theorem genFold_uniqueComps (cols : List dBColumn) (s : genState) :
    (cols.foldl genColumn s).uniqueComps =
      (groupInsertions (fun c => c.Uniques) cols).foldl (fun m p => mapAppend m p.1 p.2)
        s.uniqueComps := by
  induction cols generalizing s with
  | nil => rfl
  | cons v vs ih =>
    rw [List.foldl_cons, ih, genColumn_uniqueComps, groupInsertions_cons _ v vs,
      List.foldl_append]

theorem genFold_indexComps (cols : List dBColumn) (s : genState) :
    (cols.foldl genColumn s).indexComps =
      (groupInsertions (fun c => c.Indexs) cols).foldl (fun m p => mapAppend m p.1 p.2)
        s.indexComps := by
  induction cols generalizing s with
  | nil => rfl
  | cons v vs ih =>
    rw [List.foldl_cons, ih, genColumn_indexComps, groupInsertions_cons _ v vs,
      List.foldl_append]

/-! ### Go maps as lists of entries -/

theorem mem_firstOccurrences (l : List String) (b : String) :
    b ∈ firstOccurrences l ↔ b ∈ l := by
  induction l with
  | nil => simp [firstOccurrences]
  | cons a l ih =>
    simp only [firstOccurrences, List.mem_cons, List.mem_filter, ih, decide_eq_true_eq]
    by_cases h : b = a
    · simp [h]
    · simp [h]

theorem nodup_firstOccurrences (l : List String) : (firstOccurrences l).Nodup := by
  induction l with
  | nil => simp [firstOccurrences]
  | cons a l ih =>
    simp only [firstOccurrences, List.nodup_cons, List.mem_filter, decide_eq_true_eq]
    exact ⟨fun h => h.2 rfl, ih.filter _⟩

theorem firstOccurrences_concat (l : List String) (k : String) :
    firstOccurrences (l ++ [k]) =
      if k ∈ l then firstOccurrences l else firstOccurrences l ++ [k] := by
  induction l with
  | nil => simp [firstOccurrences]
  | cons a l ih =>
    have e : firstOccurrences (a :: l ++ [k]) =
        a :: (firstOccurrences (l ++ [k])).filter (fun b => b ≠ a) := rfl
    have e' : firstOccurrences (a :: l) =
        a :: (firstOccurrences l).filter (fun b => b ≠ a) := rfl
    rw [e, e', ih]
    by_cases hk : k ∈ l
    · simp [hk]
    · rw [if_neg hk]
      by_cases ha : k = a
      · simp [ha, List.filter_append]
      · simp [hk, ha, List.filter_append]

theorem mapAppend_of_mem (keys : List String) (f : String → List String) (k x : String)
    (hn : keys.Nodup) (hk : k ∈ keys) :
    mapAppend (keys.map (fun g => (g, f g))) k x =
      keys.map (fun g => (g, if g = k then f g ++ [x] else f g)) := by
  induction keys with
  | nil => cases hk
  | cons a as ih =>
    rw [List.nodup_cons] at hn
    by_cases ha : a = k
    · subst ha
      simp only [List.map_cons, mapAppend, if_true]
      congr 1
      apply List.map_congr_left
      intro g hg
      have : g ≠ a := fun h => hn.1 (h ▸ hg)
      simp [this]
    · have hk' : k ∈ as := by
        rcases List.mem_cons.1 hk with h | h
        · exact absurd h.symm ha
        · exact h
      simp only [List.map_cons, mapAppend, if_neg ha, ih hn.2 hk']

theorem mapAppend_of_not_mem (keys : List String) (f : String → List String) (k x : String)
    (hk : k ∉ keys) :
    mapAppend (keys.map (fun g => (g, f g))) k x =
      keys.map (fun g => (g, f g)) ++ [(k, [x])] := by
  induction keys with
  | nil => rfl
  | cons a as ih =>
    have ha : ¬ a = k := fun h => hk (h ▸ List.mem_cons_self _ _)
    have hk' : k ∉ as := fun h => hk (List.mem_cons_of_mem _ h)
    simp only [List.map_cons, mapAppend, if_neg ha, ih hk', List.cons_append]

theorem mapAppend_groupsOf (ins : List (String × String)) (k x : String) :
    mapAppend (groupsOf ins) k x = groupsOf (ins ++ [(k, x)]) := by
  unfold groupsOf
  rw [List.map_append, List.map_cons, List.map_nil, firstOccurrences_concat]
  by_cases hk : k ∈ ins.map Prod.fst
  · rw [if_pos hk, mapAppend_of_mem _ _ k x (nodup_firstOccurrences _)
      ((mem_firstOccurrences _ _).2 hk)]
    apply List.map_congr_left
    intro g _
    by_cases hg : g = k
    · subst hg; simp [List.filter_append]
    · have hg' : ¬ k = g := fun h => hg h.symm
      simp [List.filter_append, hg, hg']
  · rw [if_neg hk, mapAppend_of_not_mem _ _ k x
      (fun h => hk ((mem_firstOccurrences _ _).1 h)), List.map_append]
    have hnone : ins.filter (fun p => decide (p.1 = k)) = [] := by
      rw [List.filter_eq_nil_iff]
      intro p hp hpk
      exact hk (List.mem_map.2 ⟨p, hp, by simpa using hpk⟩)
    congr 1
    · apply List.map_congr_left
      intro g hg
      have hgk : ¬ k = g := fun h => hk ((mem_firstOccurrences _ _).1 (h ▸ hg))
      simp [List.filter_append, hgk]
    · simp [List.filter_append, hnone]

theorem foldl_mapAppend (ins : List (String × String)) :
    ins.foldl (fun m p => mapAppend m p.1 p.2) [] = groupsOf ins := by
  induction ins using List.reverseRecOn with
  | nil => rfl
  | append_singleton l p ih =>
    rw [List.foldl_append, ih]
    exact mapAppend_groupsOf l p.1 p.2

theorem primaryKey_ne_empty (n : String) : "primary key (`" ++ n ++ "`)" ≠ "" := by
  intro h
  have h1 := congrArg String.length h
  have h2 : ("primary key (`" : String).length = 14 := rfl
  have h3 : ("" : String).length = 0 := rfl
  simp only [String.length_append, h2, h3] at h1
  omega

/-- The output of `generateColumnStrings`, part by part. -/
theorem generateColumnStrings_eq (ru ri : RangeOrder) (cols : List dBColumn) :
    generateColumnStrings ru ri cols =
      cols.map (fun v => strings.Join (clauseWords v) " ") ++ primaryClauses cols ++
        simpleUniqueClauses cols ++ simpleIndexClauses cols ++
        (ru.order (compositeGroups (fun c => c.Uniques) cols)).map
          (fun kv => "unique key `" ++ kv.1 ++ "` (" ++ strings.Join kv.2 "," ++ ")") ++
        (ri.order (compositeGroups (fun c => c.Indexs) cols)).map
          (fun kv => "key `" ++ kv.1 ++ "` (" ++ strings.Join kv.2 "," ++ ")") := by
  unfold generateColumnStrings genFinish
  simp only [genFold_ret, genFold_primaryStr, genFold_uniqueColumns, genFold_indexColumns,
    genFold_uniqueComps, genFold_indexComps, foldl_mapAppend, columnWords_eq_clauseWords]
  unfold primaryClauses compositeGroups
  cases (cols.filter (fun c => c.Primary)).getLast? with
  | none => simp
  | some c => simp [primaryKey_ne_empty]

theorem groupInsertions_of_empty (sel : dBColumn → List String) (cols : List dBColumn)
    (h : ∀ c ∈ cols, sel c = []) : groupInsertions sel cols = [] := by
  induction cols with
  | nil => rfl
  | cons v vs ih =>
    rw [groupInsertions_cons, ih (fun c hc => h c (List.mem_cons_of_mem _ hc))]
    unfold groupInsertions
    simp [h v (List.mem_cons_self _ _)]

/-- C11, counterexample. A column that is primary and unique, followed by a
column that is unique and index: the key clauses are the primary key of the
first and the unique key of the second, one clause for each column, not one for
each flag. -/
theorem C11_counterexample :
    generateColumnStrings RangeOrder.insertion RangeOrder.insertion doublyFlaggedColumns =
      ["`id` bigint not null default '0'", "`code` varchar(255) not null default ''",
       "primary key (`id`)", "unique key `code` (`code`)"] := by
  decide

/-- C11, amended. For a list of columns with no composite group, the strings
after the column clauses are, in this order: the primary-key clause of the
last primary column if a column is primary; one clause `unique key` for each
column that is unique and not primary, in column order; one clause `key` for
each column that is index and neither primary nor unique, in column order. -/
theorem C11_key_clauses (ru ri : RangeOrder) (cols : List dBColumn)
    (hno : ∀ c ∈ cols, c.Uniques = [] ∧ c.Indexs = []) :
    generateColumnStrings ru ri cols =
      cols.map (fun v => strings.Join (clauseWords v) " ") ++
        (match (cols.filter (fun c => c.Primary)).getLast? with
          | none => []
          | some c => ["primary key (`" ++ c.Name ++ "`)"]) ++
        (cols.filter (fun c => !c.Primary && c.Unique)).map
          (fun c => "unique key `" ++ c.Name ++ "` (`" ++ c.Name ++ "`)") ++
        (cols.filter (fun c => !c.Primary && !c.Unique && c.Index)).map
          (fun c => "key `" ++ c.Name ++ "` (`" ++ c.Name ++ "`)") := by
  rw [generateColumnStrings_eq]
  unfold compositeGroups
  rw [groupInsertions_of_empty _ cols (fun c hc => (hno c hc).1),
    groupInsertions_of_empty _ cols (fun c hc => (hno c hc).2)]
  have hg : groupsOf [] = [] := rfl
  rw [hg, RangeOrder.order_nil, RangeOrder.order_nil]
  simp only [List.map_nil, List.append_nil]
  rfl

/-- C11, witness: the columns of the example table. -/
theorem C11_key_clauses_witness :
    generateColumnStrings RangeOrder.insertion RangeOrder.insertion exampleColumns =
      exampleColumns.map (fun v => strings.Join (clauseWords v) " ") ++
        ["primary key (`id`)"] ++ [] ++ [] :=
  C11_key_clauses RangeOrder.insertion RangeOrder.insertion exampleColumns (by decide)

theorem groupInsertions_fst (sel : dBColumn → List String) (cols : List dBColumn) :
    (groupInsertions sel cols).map Prod.fst = cols.flatMap sel := by
  induction cols with
  | nil => rfl
  | cons v vs ih =>
    rw [groupInsertions_cons, List.map_append, ih, List.flatMap_cons]
    unfold groupInsertions
    simp [Function.comp_def]

theorem groupInsertions_members (sel : dBColumn → List String) (cols : List dBColumn)
    (g : String) :
    ((groupInsertions sel cols).filter (fun p => p.1 = g)).map Prod.snd =
      cols.flatMap (fun v => ((sel v).filter (fun x => x = g)).map
        (fun _ => "`" ++ v.Name ++ "`")) := by
  induction cols with
  | nil => rfl
  | cons v vs ih =>
    rw [groupInsertions_cons, List.filter_append, List.map_append, ih, List.flatMap_cons]
    congr 1
    unfold groupInsertions
    simp only [List.flatMap_cons, List.flatMap_nil, List.append_nil]
    induction sel v with
    | nil => rfl
    | cons a as iha =>
      by_cases ha : a = g
      · simp [List.filter_cons, ha, iha]
      · simp [List.filter_cons, ha, iha]

theorem filter_eq_of_nodup (l : List String) (g : String) (h : l.Nodup) :
    l.filter (fun x => x = g) = if g ∈ l then [g] else [] := by
  induction l with
  | nil => rfl
  | cons a as ih =>
    rw [List.nodup_cons] at h
    by_cases ha : a = g
    · subst ha
      have hn : as.filter (fun x => decide (x = a)) = [] := by
        rw [List.filter_eq_nil_iff]
        intro x hx hxa
        exact h.1 ((of_decide_eq_true hxa) ▸ hx)
      simp [List.filter_cons, hn]
    · have ha' : ¬ g = a := fun e => ha e.symm
      simp [List.filter_cons, ha, ha', ih h.2]

theorem members_of_nodup (sel : dBColumn → List String) (cols : List dBColumn) (g : String)
    (h : ∀ c ∈ cols, (sel c).Nodup) :
    cols.flatMap (fun v => ((sel v).filter (fun x => x = g)).map
        (fun _ => "`" ++ v.Name ++ "`")) =
      (cols.filter (fun v => g ∈ sel v)).map (fun v => "`" ++ v.Name ++ "`") := by
  induction cols with
  | nil => rfl
  | cons v vs ih =>
    rw [List.flatMap_cons, ih (fun c hc => h c (List.mem_cons_of_mem _ hc)),
      filter_eq_of_nodup _ g (h v (List.mem_cons_self _ _)), List.filter_cons]
    by_cases hg : g ∈ sel v
    · simp [hg]
    · simp [hg]

theorem mem_groupsOf (ins : List (String × String)) (g : String) (ms : List String)
    (h : (g, ms) ∈ groupsOf ins) :
    ms = (ins.filter (fun p => p.1 = g)).map Prod.snd := by
  unfold groupsOf at h
  obtain ⟨g', _, he⟩ := List.mem_map.1 h
  cases he
  rfl

theorem groupsOf_fst (ins : List (String × String)) :
    (groupsOf ins).map Prod.fst = firstOccurrences (ins.map Prod.fst) := by
  unfold groupsOf
  simp [Function.comp_def]

/-- C12, counterexample. One column `a` whose `Uniques` names the group
`unique_x` twice: the clause of the group lists the column twice. -/
theorem C12_counterexample :
    generateColumnStrings RangeOrder.insertion RangeOrder.insertion repeatedGroupColumns =
      ["`a` int not null default '0'", "unique key `unique_x` (`a`,`a`)"] := by
  decide

/-- C12, amended. The output is the column clauses, the simple key clauses,
then one clause `unique key` for each composite-unique group and then one
clause `key` for each composite-index group, the groups of each sort in the
order of the `range` over the map. For `sel` either `Uniques` or `Indexs`,
the groups are the distinct group names that occur, each once; the members
of a group are the quoted names of the columns, in column order, each as many
times as the column names the group; so each column that carries the group is
listed once when no column names a group twice. -/
theorem C12_composite_groups (ru ri : RangeOrder) (cols : List dBColumn)
    (sel : dBColumn → List String) :
    (generateColumnStrings ru ri cols =
      cols.map (fun v => strings.Join (clauseWords v) " ") ++ primaryClauses cols ++
        simpleUniqueClauses cols ++ simpleIndexClauses cols ++
        (ru.order (compositeGroups (fun c => c.Uniques) cols)).map
          (fun kv => "unique key `" ++ kv.1 ++ "` (" ++ strings.Join kv.2 "," ++ ")") ++
        (ri.order (compositeGroups (fun c => c.Indexs) cols)).map
          (fun kv => "key `" ++ kv.1 ++ "` (" ++ strings.Join kv.2 "," ++ ")")) ∧
    (ru.order (compositeGroups (fun c => c.Uniques) cols)).Perm
      (compositeGroups (fun c => c.Uniques) cols) ∧
    (ri.order (compositeGroups (fun c => c.Indexs) cols)).Perm
      (compositeGroups (fun c => c.Indexs) cols) ∧
    ((compositeGroups sel cols).map Prod.fst).Nodup ∧
    (∀ g, g ∈ (compositeGroups sel cols).map Prod.fst ↔ ∃ c ∈ cols, g ∈ sel c) ∧
    (∀ g ms, (g, ms) ∈ compositeGroups sel cols →
      ms = cols.flatMap (fun v => ((sel v).filter (fun x => x = g)).map
        (fun _ => "`" ++ v.Name ++ "`"))) ∧
    ((∀ c ∈ cols, (sel c).Nodup) → ∀ g ms, (g, ms) ∈ compositeGroups sel cols →
      ms = (cols.filter (fun v => g ∈ sel v)).map (fun v => "`" ++ v.Name ++ "`")) := by
  have hm : ∀ g ms, (g, ms) ∈ compositeGroups sel cols →
      ms = cols.flatMap (fun v => ((sel v).filter (fun x => x = g)).map
        (fun _ => "`" ++ v.Name ++ "`")) := by
    intro g ms h
    rw [mem_groupsOf _ g ms h, groupInsertions_members]
  have hk : (compositeGroups sel cols).map Prod.fst = firstOccurrences (cols.flatMap sel) := by
    unfold compositeGroups
    rw [groupsOf_fst, groupInsertions_fst]
  refine ⟨generateColumnStrings_eq ru ri cols, ru.perm _, ri.perm _, ?_, ?_, hm, ?_⟩
  · rw [hk]; exact nodup_firstOccurrences _
  · intro g
    rw [hk, mem_firstOccurrences, List.mem_flatMap]
  · intro hn g ms h
    rw [hm g ms h, members_of_nodup sel cols g hn]

/-- C12, witness: three columns over the groups `unique_x` and `unique_y`; the
members of `unique_x` are the columns `a` and `c`. -/
theorem C12_composite_groups_witness :
    ["`a`", "`c`"] = (groupedColumns.filter (fun v => "unique_x" ∈ v.Uniques)).map
      (fun v => "`" ++ v.Name ++ "`") :=
  (C12_composite_groups RangeOrder.insertion RangeOrder.insertion groupedColumns
    (fun c => c.Uniques)).2.2.2.2.2.2 (by decide) "unique_x" ["`a`", "`c`"] (by decide)

/-- C13, the code at the failing input. Two runs over the same three columns,
which differ only in the order of the `range` over the map of unique groups:
one emits `unique_x` before `unique_y`, the other `unique_y` before
`unique_x`. -/
theorem C13_group_order_varies :
    generateColumnStrings RangeOrder.insertion RangeOrder.insertion groupedColumns =
      ["`a` int not null default '0'", "`b` int not null default '0'",
       "`c` int not null default '0'",
       "unique key `unique_x` (`a`,`c`)", "unique key `unique_y` (`b`,`c`)",
       "key `index_z` (`a`,`b`)"] ∧
    generateColumnStrings RangeOrder.reversed RangeOrder.insertion groupedColumns =
      ["`a` int not null default '0'", "`b` int not null default '0'",
       "`c` int not null default '0'",
       "unique key `unique_y` (`b`,`c`)", "unique key `unique_x` (`a`,`c`)",
       "key `index_z` (`a`,`b`)"] := by
  decide

theorem createTable_ne_empty (n body : String) :
    "create table IF NOT EXISTS `" ++ n ++ "` (" ++ body ++ ")" ≠ "" := by
  intro h
  have h1 := congrArg String.length h
  have h2 : ("create table IF NOT EXISTS `" : String).length = 28 := rfl
  have h3 : ("" : String).length = 0 := rfl
  simp only [String.length_append, h2, h3] at h1
  omega

/-- `Migrate` when the handle is missing. -/
theorem Migrate_no_db (ru ri : RangeOrder) (m : Query) (h : m.DB = none) :
    Migrate ru ri m = ⟨"", some "no db exist", []⟩ := by
  unfold Migrate; rw [h]

/-- `Migrate` when the second check fails (lines 43-46). -/
theorem Migrate_no_table (ru ri : RangeOrder) (m : Query) (db : DB) (hdb : m.DB = some db)
    (h : m.tables = [] ∨ ∃ t0 rest, m.tables = t0 :: rest ∧
      (t0.ormFields = [] ∨ t0.table = none ∨
        ∃ tbl, t0.table = some tbl ∧ tbl.TableName = "")) :
    Migrate ru ri m = ⟨"", some "no table exist", []⟩ := by
  unfold Migrate
  rw [hdb]
  rcases h with h | ⟨t0, rest, ht, h⟩
  · rw [h]
  · rw [ht]
    simp only []
    by_cases ho : t0.ormFields.length = 0
    · rw [if_pos ho]
    · rw [if_neg ho]
      rcases h with h | h | ⟨tbl, htb, hn⟩
      · exact absurd (by rw [h]; rfl) ho
      · rw [h]
      · rw [htb]; simp only []; rw [if_pos hn]

/-- `Migrate` when the first two checks pass. -/
theorem Migrate_with_table (ru ri : RangeOrder) (m : Query) (db : DB) (t0 : queryTable)
    (rest : List queryTable) (tbl : Table) (hdb : m.DB = some db) (ht : m.tables = t0 :: rest)
    (ho : t0.ormFields ≠ []) (htb : t0.table = some tbl) (hn : tbl.TableName ≠ "") :
    Migrate ru ri m =
      if getMigrateColumns t0 = [] then ⟨"", some "no column exist", []⟩
      else
        ⟨"create table IF NOT EXISTS `" ++ tbl.TableName ++ "` (" ++
            strings.Join (generateColumnStrings ru ri (getMigrateColumns t0)) "," ++ ")",
          db.Exec ("create table IF NOT EXISTS `" ++ tbl.TableName ++ "` (" ++
            strings.Join (generateColumnStrings ru ri (getMigrateColumns t0)) "," ++ ")"),
          ["create table IF NOT EXISTS `" ++ tbl.TableName ++ "` (" ++
            strings.Join (generateColumnStrings ru ri (getMigrateColumns t0)) "," ++ ")"]⟩ := by
  unfold Migrate
  rw [hdb, ht]
  simp only []
  have ho' : ¬ t0.ormFields.length = 0 := fun h => ho (List.length_eq_zero.1 h)
  rw [if_neg ho', htb]
  simp only []
  rw [if_neg hn]
  by_cases hc : getMigrateColumns t0 = []
  · rw [if_pos hc, if_pos (by rw [hc]; rfl)]
  · rw [if_neg hc, if_neg (fun h => hc (List.length_eq_zero.1 h))]

/-- C14, counterexample. With a handle and one registered table: an empty
table name and no column give the error of the table check; so does an empty
table name alone; no column alone gives the error of the column check. The
table name is checked before the columns. -/
theorem C14_counterexample :
    Migrate RangeOrder.insertion RangeOrder.insertion
        ⟨some okDB, [⟨some ⟨""⟩, ["id"], []⟩]⟩ = ⟨"", some "no table exist", []⟩ ∧
    Migrate RangeOrder.insertion RangeOrder.insertion
        ⟨some okDB, [⟨some ⟨""⟩, ["id"], exampleFields false⟩]⟩ =
      ⟨"", some "no table exist", []⟩ ∧
    Migrate RangeOrder.insertion RangeOrder.insertion
        ⟨some okDB, [⟨some ⟨"t"⟩, ["id"], []⟩]⟩ = ⟨"", some "no column exist", []⟩ := by
  decide

/-- C14, amended. Whenever the handle is missing, or no table is registered, or
the first table has no resolvable column, or its name is empty, `Migrate`
returns an error with the empty text and calls `Exec` not at all. The checks
come in this order, and the first that fails gives the error: the handle
(`no db exist`); a first table with non-empty `ormFields`, a table value and a
non-empty name (`no table exist`); a resolvable column (`no column exist`). -/
theorem C14_configuration_errors (ru ri : RangeOrder) (m : Query) :
    ((m.DB = none ∨ m.tables = [] ∨ ∃ t0 rest, m.tables = t0 :: rest ∧
        (getMigrateColumns t0 = [] ∨ ∃ tbl, t0.table = some tbl ∧ tbl.TableName = "")) →
      (Migrate ru ri m).sql = "" ∧ (Migrate ru ri m).err ≠ none ∧
        (Migrate ru ri m).executed = []) ∧
    (m.DB = none → Migrate ru ri m = ⟨"", some "no db exist", []⟩) ∧
    (∀ db, m.DB = some db →
      (m.tables = [] ∨ ∃ t0 rest, m.tables = t0 :: rest ∧
        (t0.ormFields = [] ∨ t0.table = none ∨
          ∃ tbl, t0.table = some tbl ∧ tbl.TableName = "")) →
      Migrate ru ri m = ⟨"", some "no table exist", []⟩) ∧
    (∀ db t0 rest tbl, m.DB = some db → m.tables = t0 :: rest → t0.ormFields ≠ [] →
      t0.table = some tbl → tbl.TableName ≠ "" → getMigrateColumns t0 = [] →
      Migrate ru ri m = ⟨"", some "no column exist", []⟩) := by
  refine ⟨?_, Migrate_no_db ru ri m, fun db hdb h => Migrate_no_table ru ri m db hdb h, ?_⟩
  · intro h
    cases hdb : m.DB with
    | none => rw [Migrate_no_db ru ri m hdb]; exact ⟨rfl, by simp, rfl⟩
    | some db =>
      have hnt : Migrate ru ri m = ⟨"", some "no table exist", []⟩ →
          (Migrate ru ri m).sql = "" ∧ (Migrate ru ri m).err ≠ none ∧
            (Migrate ru ri m).executed = [] := by
        intro e; rw [e]; exact ⟨rfl, by simp, rfl⟩
      rcases h with h | h | ⟨t0, rest, ht, h⟩
      · rw [hdb] at h; cases h
      · exact hnt (Migrate_no_table ru ri m db hdb (Or.inl h))
      · by_cases ho : t0.ormFields = []
        · exact hnt
            (Migrate_no_table ru ri m db hdb (Or.inr ⟨t0, rest, ht, Or.inl ho⟩))
        · cases htb : t0.table with
          | none =>
            exact hnt
              (Migrate_no_table ru ri m db hdb (Or.inr ⟨t0, rest, ht, Or.inr (Or.inl htb)⟩))
          | some tbl =>
            by_cases hn : tbl.TableName = ""
            · exact hnt (Migrate_no_table ru ri m db hdb
                (Or.inr ⟨t0, rest, ht, Or.inr (Or.inr ⟨tbl, htb, hn⟩)⟩))
            · rcases h with hc | ⟨tbl', htb', hn'⟩
              · rw [Migrate_with_table ru ri m db t0 rest tbl hdb ht ho htb hn, if_pos hc]
                exact ⟨rfl, by simp, rfl⟩
              · rw [htb] at htb'
                cases htb'
                exact absurd hn' hn
  · intro db t0 rest tbl hdb ht ho htb hn hc
    rw [Migrate_with_table ru ri m db t0 rest tbl hdb ht ho htb hn, if_pos hc]

/-- C14, witness: a registered table named `t` without any field. -/
theorem C14_configuration_errors_witness :
    (Migrate RangeOrder.insertion RangeOrder.insertion
        ⟨some okDB, [⟨some ⟨"t"⟩, ["id"], []⟩]⟩).sql = "" ∧
    (Migrate RangeOrder.insertion RangeOrder.insertion
        ⟨some okDB, [⟨some ⟨"t"⟩, ["id"], []⟩]⟩).err ≠ none ∧
    (Migrate RangeOrder.insertion RangeOrder.insertion
        ⟨some okDB, [⟨some ⟨"t"⟩, ["id"], []⟩]⟩).executed = [] :=
  (C14_configuration_errors RangeOrder.insertion RangeOrder.insertion
    ⟨some okDB, [⟨some ⟨"t"⟩, ["id"], []⟩]⟩).1
    (Or.inr (Or.inr ⟨_, _, rfl, Or.inl rfl⟩))

/-- C15. When the handle exists, a first table is registered with non-empty
`ormFields`, a table value and a non-empty name, and it has a resolvable
column, `Migrate` calls `Exec` exactly once, with the statement built from the
table name and the comma-joined strings of `generateColumnStrings`, and
returns that statement, which is not empty, with the error of the call as it
is, also when the call fails. -/
theorem C15_success_path (ru ri : RangeOrder) (m : Query) (db : DB) (t0 : queryTable)
    (rest : List queryTable) (tbl : Table) (sql : String) (hdb : m.DB = some db)
    (ht : m.tables = t0 :: rest) (ho : t0.ormFields ≠ []) (htb : t0.table = some tbl)
    (hn : tbl.TableName ≠ "") (hc : getMigrateColumns t0 ≠ [])
    (hsql : sql = "create table IF NOT EXISTS `" ++ tbl.TableName ++ "` (" ++
      strings.Join (generateColumnStrings ru ri (getMigrateColumns t0)) "," ++ ")") :
    Migrate ru ri m = ⟨sql, db.Exec sql, [sql]⟩ ∧ sql ≠ "" ∧
    (∀ db' : DB, (Migrate ru ri { m with DB := some db' }).sql = sql ∧
      (Migrate ru ri { m with DB := some db' }).err = db'.Exec sql ∧
      (Migrate ru ri { m with DB := some db' }).executed = [sql]) := by
  have hm : ∀ d : DB, Migrate ru ri { m with DB := some d } = ⟨sql, d.Exec sql, [sql]⟩ := by
    intro d
    rw [Migrate_with_table ru ri { m with DB := some d } d t0 rest tbl rfl ht ho htb hn,
      if_neg hc, hsql]
  refine ⟨?_, ?_, ?_⟩
  · rw [Migrate_with_table ru ri m db t0 rest tbl hdb ht ho htb hn, if_neg hc, hsql]
  · rw [hsql]; exact createTable_ne_empty _ _
  · intro d
    rw [hm d]
    exact ⟨rfl, rfl, rfl⟩

set_option maxRecDepth 100000 in
/-- C15, witness: the example table with a handle whose `Exec` fails; the
statement is returned with the error. -/
theorem C15_success_path_witness :
    Migrate RangeOrder.insertion RangeOrder.insertion
        ⟨some failingDB, [exampleTable ["id"] false]⟩ =
      ⟨"create table IF NOT EXISTS `t` (`id` bigint not null auto_increment,`name` varchar(255) not null default '',`created_at` timestamp not null default CURRENT_TIMESTAMP,`deleted_at` timestamp null default null,primary key (`id`))",
        some "exec failed",
        ["create table IF NOT EXISTS `t` (`id` bigint not null auto_increment,`name` varchar(255) not null default '',`created_at` timestamp not null default CURRENT_TIMESTAMP,`deleted_at` timestamp null default null,primary key (`id`))"]⟩ :=
  (C15_success_path RangeOrder.insertion RangeOrder.insertion
    ⟨some failingDB, [exampleTable ["id"] false]⟩ failingDB (exampleTable ["id"] false) []
    ⟨"t"⟩ _ rfl rfl (by decide) rfl (by decide) (by decide) (by decide)).1

theorem generateColumnStrings_getElem (ru ri : RangeOrder) (cols : List dBColumn)
    (j : Nat) (v : dBColumn) (hv : cols[j]? = some v) :
    (generateColumnStrings ru ri cols)[j]? = some (strings.Join (clauseWords v) " ") := by
  obtain ⟨keys, hk⟩ := generateColumnStrings_clauses ru ri cols
  have hj : j < cols.length := by
    rcases Nat.lt_or_ge j cols.length with h | h
    · exact h
    · rw [List.getElem?_eq_none h] at hv; cases hv
  rw [hk, List.getElem?_append_left (by simpa using hj), List.getElem?_map, hv]
  rfl

theorem migrateColumn_Null_Default (i : Nat) (f : structField) (c : dBColumn)
    (h : migrateColumn i f = some c) (hn : c.Null = true) (hd : f.dflt.tok0 = "") :
    c.Default = "null" := by
  obtain ⟨_, rfl⟩ := (migrateColumn_eq_some i f c).1 h
  rw [quoteDefault_Null] at hn
  have hb : (columnBeforeQuote i f).Default = "null" := by
    unfold columnBeforeQuote at hn ⊢
    rw [nullDefault_Null] at hn
    rw [nullDefault_Default, if_pos ⟨hn, hd⟩]
  rw [quoteDefault_Default, hb]
  decide

/-- C16, counterexample. A field `id int64` tagged `orm:"id,null,auto_increment"`:
the column is nullable, the field has no `default` tag, the default is `null`,
and the clause is `null auto_increment`, with no `default null`. -/
theorem C16_counterexample :
    migrateColumn 0 nullAutoIncrementField =
      some { Name := "id", Type_ := "bigint", Null := true, AutoIncrement := true,
             Default := "null" } ∧
    nullAutoIncrementField.dflt.tok0 = "" ∧
    generateColumnStrings RangeOrder.insertion RangeOrder.insertion
        (getMigrateColumns ⟨some ⟨"t"⟩, ["id"], [nullAutoIncrementField]⟩) =
      ["`id` bigint null auto_increment"] := by
  decide

/-- C16, amended. For a surviving field whose returned column is nullable and
whose `default` token 0 is empty, the returned default is `null`, unquoted;
the clause rendered for the column, at its place in any list of columns, has
the words `null` and `default null` after the type when the column is not
auto-increment, and the words `null` and `auto_increment` when it is. -/
theorem C16_nullable_default (i : Nat) (f : structField) (c : dBColumn)
    (h : migrateColumn i f = some c) (hn : c.Null = true) (hd : f.dflt.tok0 = "") :
    c.Default = "null" ∧
    (c.AutoIncrement = false → ∀ (ru ri : RangeOrder) (cols : List dBColumn) (j : Nat),
      cols[j]? = some c →
      (generateColumnStrings ru ri cols)[j]? =
        some (strings.Join
          (["`" ++ c.Name ++ "`", c.Type_, "null", "default null"] ++
            (if c.Comment ≠ "" then ["comment '" ++ c.Comment ++ "'"] else [])) " ")) ∧
    (c.AutoIncrement = true → ∀ (ru ri : RangeOrder) (cols : List dBColumn) (j : Nat),
      cols[j]? = some c →
      (generateColumnStrings ru ri cols)[j]? =
        some (strings.Join
          (["`" ++ c.Name ++ "`", c.Type_, "null", "auto_increment"] ++
            (if c.Comment ≠ "" then ["comment '" ++ c.Comment ++ "'"] else [])) " ")) := by
  have hdef := migrateColumn_Null_Default i f c h hn hd
  refine ⟨hdef, ?_, ?_⟩
  · intro ha ru ri cols j hj
    rw [generateColumnStrings_getElem ru ri cols j c hj]
    unfold clauseWords
    rw [hdef]
    simp [hn, ha]
  · intro ha ru ri cols j hj
    rw [generateColumnStrings_getElem ru ri cols j c hj]
    unfold clauseWords
    simp [hn, ha]

/-- C16, witness: the field `deleted_at` of the example table. -/
theorem C16_nullable_default_witness :
    (exampleColumns.get ⟨3, by decide⟩).Default = "null" :=
  (C16_nullable_default 3
    (exampleField ⟨true, Kind.Ptr, Kind.Struct, true, false⟩ "deleted_at")
    (exampleColumns.get ⟨3, by decide⟩) (by decide) (by decide) (by decide)).1

theorem hasPrefix_false_of_head (s p : String) (a b : Char) (r r' : List Char)
    (hs : s.data = a :: r) (hp : p.data = b :: r') (hab : b ≠ a) :
    strings.HasPrefix s p = false := by
  unfold strings.HasPrefix
  rw [hs, hp]
  simp [List.isPrefixOf, hab]

theorem hasPrefix_exclusive (v p q : String) (a b : Char) (r r' : List Char)
    (hp : p.data = a :: r) (hq : q.data = b :: r') (hab : a ≠ b)
    (h : strings.HasPrefix v p = true) : strings.HasPrefix v q = false := by
  unfold strings.HasPrefix at h ⊢
  rw [hp] at h
  rw [hq]
  cases hv : v.data with
  | nil => rw [hv] at h; simp [List.isPrefixOf] at h
  | cons c cs =>
    rw [hv] at h
    simp only [List.isPrefixOf, Bool.and_eq_true, beq_iff_eq] at h
    have hbc : b ≠ c := fun e => hab (h.1.trans e.symm)
    simp [List.isPrefixOf, hbc]

theorem unique_excl_primary (v : String) (h : strings.HasPrefix v uniqueKeyPrefix = true) :
    strings.HasPrefix v primaryKeyPrefix = false :=
  hasPrefix_exclusive v uniqueKeyPrefix primaryKeyPrefix 'u' 'p' _ _ rfl rfl (by decide) h

theorem index_excl_primary (v : String) (h : strings.HasPrefix v keyPrefix = true) :
    strings.HasPrefix v primaryKeyPrefix = false :=
  hasPrefix_exclusive v keyPrefix primaryKeyPrefix 'i' 'p' _ _ rfl rfl (by decide) h

theorem index_excl_unique (v : String) (h : strings.HasPrefix v keyPrefix = true) :
    strings.HasPrefix v uniqueKeyPrefix = false :=
  hasPrefix_exclusive v keyPrefix uniqueKeyPrefix 'i' 'u' _ _ rfl rfl (by decide) h

theorem unique_ne_tokens (v : String) (h : strings.HasPrefix v uniqueKeyPrefix = true) :
    v ≠ nullPrefix ∧ v ≠ autoIncrementPrefix := by
  constructor
  · intro e; rw [e] at h; revert h; decide
  · intro e; rw [e] at h; revert h; decide

theorem index_ne_tokens (v : String) (h : strings.HasPrefix v keyPrefix = true) :
    v ≠ nullPrefix ∧ v ≠ autoIncrementPrefix := by
  constructor
  · intro e; rw [e] at h; revert h; decide
  · intro e; rw [e] at h; revert h; decide

/-! ### The group lists through the loop over the `orm` tokens -/

theorem ormToken_snd_Uniques (st : dBColumn × dBColumn) (v : String) :
    (ormToken st v).2.Uniques =
      st.2.Uniques ++
        (if strings.HasPrefix v uniqueKeyPrefix = true ∧ v ≠ uniqueKeyPrefix then [v]
          else []) := by
  unfold ormToken
  by_cases hu : strings.HasPrefix v uniqueKeyPrefix = true
  · have h1 := (unique_ne_tokens v hu).1
    have h2 := (unique_ne_tokens v hu).2
    have h3 : ¬ strings.HasPrefix v primaryKeyPrefix = true := by
      rw [unique_excl_primary v hu]; simp
    simp only [if_neg h1, if_neg h2, if_neg h3, if_pos hu]
    by_cases he : v = uniqueKeyPrefix
    · simp [he]
    · simp [he, hu]
  · have hc : ¬ (strings.HasPrefix v uniqueKeyPrefix = true ∧ v ≠ uniqueKeyPrefix) :=
      fun h => hu h.1
    rw [if_neg hc, List.append_nil]
    simp only [if_neg hu]
    split_ifs <;> rfl

theorem ormToken_snd_Indexs (st : dBColumn × dBColumn) (v : String) :
    (ormToken st v).2.Indexs =
      st.2.Indexs ++
        (if strings.HasPrefix v keyPrefix = true ∧ v ≠ keyPrefix then [v] else []) := by
  unfold ormToken
  by_cases hu : strings.HasPrefix v keyPrefix = true
  · have h1 := (index_ne_tokens v hu).1
    have h2 := (index_ne_tokens v hu).2
    have h3 : ¬ strings.HasPrefix v primaryKeyPrefix = true := by
      rw [index_excl_primary v hu]; simp
    have h4 : ¬ strings.HasPrefix v uniqueKeyPrefix = true := by
      rw [index_excl_unique v hu]; simp
    simp only [if_neg h1, if_neg h2, if_neg h3, if_neg h4, if_pos hu]
    by_cases he : v = keyPrefix
    · simp [he]
    · simp [he, hu]
  · have hc : ¬ (strings.HasPrefix v keyPrefix = true ∧ v ≠ keyPrefix) := fun h => hu h.1
    rw [if_neg hc, List.append_nil]
    simp only [if_neg hu]
    split_ifs <;> rfl

theorem ormFold_snd_Uniques (rest : List String) (st : dBColumn × dBColumn) :
    (rest.foldl ormToken st).2.Uniques =
      st.2.Uniques ++
        rest.filter (fun v => strings.HasPrefix v uniqueKeyPrefix && v != uniqueKeyPrefix) := by
  induction rest generalizing st with
  | nil => simp
  | cons v vs ih =>
    rw [List.foldl_cons, ih, ormToken_snd_Uniques, List.filter_cons, List.append_assoc]
    congr 1
    by_cases hu : strings.HasPrefix v uniqueKeyPrefix = true <;>
      by_cases he : v = uniqueKeyPrefix <;> simp [hu, he]

theorem ormFold_snd_Indexs (rest : List String) (st : dBColumn × dBColumn) :
    (rest.foldl ormToken st).2.Indexs =
      st.2.Indexs ++
        rest.filter (fun v => strings.HasPrefix v keyPrefix && v != keyPrefix) := by
  induction rest generalizing st with
  | nil => simp
  | cons v vs ih =>
    rw [List.foldl_cons, ih, ormToken_snd_Indexs, List.filter_cons, List.append_assoc]
    congr 1
    by_cases hu : strings.HasPrefix v keyPrefix = true <;>
      by_cases he : v = keyPrefix <;> simp [hu, he]

theorem initColumn_groups (i : Nat) (f : structField) :
    (initColumn i f).Uniques = [] ∧ (initColumn i f).Indexs = [] := by
  unfold initColumn; simp only []; constructor <;> (split_ifs <;> rfl)

theorem bookkeeping_groups (c : dBColumn) :
    (bookkeeping c).Uniques = c.Uniques ∧ (bookkeeping c).Indexs = c.Indexs := by
  unfold bookkeeping; constructor <;> (split_ifs <;> rfl)

theorem customDefault_groups (f : structField) (c : dBColumn) :
    (customDefault f c).Uniques = c.Uniques ∧ (customDefault f c).Indexs = c.Indexs := by
  unfold customDefault; simp only []; constructor <;> (split_ifs <;> rfl)

/-- The two group lists of the column before the override by the `orm` tokens
are empty. -/
theorem beforeOrm_groups (i : Nat) (f : structField) :
    (customDefault f (bookkeeping (initColumn i f))).Uniques = [] ∧
    (customDefault f (bookkeeping (initColumn i f))).Indexs = [] := by
  rw [(customDefault_groups f _).1, (customDefault_groups f _).2, (bookkeeping_groups _).1,
    (bookkeeping_groups _).2]
  exact initColumn_groups i f

theorem nullDefault_groups (f : structField) (c : dBColumn) :
    (nullDefault f c).Uniques = c.Uniques ∧ (nullDefault f c).Indexs = c.Indexs := by
  unfold nullDefault; constructor <;> (split_ifs <;> rfl)

theorem quoteDefault_groups (c : dBColumn) :
    (quoteDefault c).Uniques = c.Uniques ∧ (quoteDefault c).Indexs = c.Indexs := by
  unfold quoteDefault; constructor <;> (split_ifs <;> rfl)

theorem afterOrm_groups (f : structField) (c : dBColumn) :
    (quoteDefault (nullDefault f c)).Uniques = c.Uniques ∧
    (quoteDefault (nullDefault f c)).Indexs = c.Indexs := by
  rw [(quoteDefault_groups _).1, (quoteDefault_groups _).2]
  exact nullDefault_groups f c

theorem ormOverride_groups (f : structField) (c : dBColumn) (h : f.orm.tok0 ≠ "") :
    (ormOverride f c).Uniques =
      c.Uniques ++ f.orm.rest.filter
        (fun v => strings.HasPrefix v uniqueKeyPrefix && v != uniqueKeyPrefix) ∧
    (ormOverride f c).Indexs =
      c.Indexs ++ f.orm.rest.filter
        (fun v => strings.HasPrefix v keyPrefix && v != keyPrefix) := by
  unfold ormOverride
  simp only [if_pos h]
  constructor
  · split_ifs <;> simp [ormFold_snd_Uniques]
  · split_ifs <;> simp [ormFold_snd_Indexs]

theorem mem_migrateColumnsFrom (fs : List structField) (i : Nat) (c : dBColumn)
    (h : c ∈ migrateColumnsFrom i fs) : ∃ j f, f ∈ fs ∧ migrateColumn j f = some c := by
  induction fs generalizing i with
  | nil => simp [migrateColumnsFrom] at h
  | cons g gs ih =>
    cases hm : migrateColumn i g with
    | none =>
      rw [migrateColumnsFrom_cons_none gs hm] at h
      obtain ⟨j, f, hf, hj⟩ := ih (i + 1) h
      exact ⟨j, f, List.mem_cons_of_mem _ hf, hj⟩
    | some c' =>
      rw [migrateColumnsFrom_cons_some gs hm] at h
      rcases List.mem_cons.1 h with h | h
      · exact ⟨i, g, List.mem_cons_self _ _, by rw [hm, h]⟩
      · obtain ⟨j, f, hf, hj⟩ := ih (i + 1) h
        exact ⟨j, f, List.mem_cons_of_mem _ hf, hj⟩

/-- The two group lists of a returned column. -/
theorem migrateColumn_groups (i : Nat) (f : structField) (c : dBColumn)
    (h : migrateColumn i f = some c) :
    c.Uniques =
      (if f.orm.tok0 ≠ "" then f.orm.rest.filter
        (fun v => strings.HasPrefix v uniqueKeyPrefix && v != uniqueKeyPrefix) else []) ∧
    c.Indexs =
      (if f.orm.tok0 ≠ "" then f.orm.rest.filter
        (fun v => strings.HasPrefix v keyPrefix && v != keyPrefix) else []) := by
  obtain ⟨_, rfl⟩ := (migrateColumn_eq_some i f c).1 h
  unfold columnBeforeQuote
  rw [(afterOrm_groups f _).1, (afterOrm_groups f _).2]
  by_cases h0 : f.orm.tok0 = ""
  · rw [ormOverride_of_empty f _ h0, if_neg (not_not.2 h0), if_neg (not_not.2 h0)]
    exact beforeOrm_groups i f
  · rw [(ormOverride_groups f _ h0).1, (ormOverride_groups f _ h0).2,
      (beforeOrm_groups i f).1, (beforeOrm_groups i f).2, if_pos h0, if_pos h0]
    exact ⟨rfl, rfl⟩

/-- C18, counterexample. A field tagged `orm:"a,unique_x,unique_x"`: the list
`Uniques` of its column names the group twice, and the clause of the group
lists the column twice. -/
theorem C18_counterexample :
    migrateColumn 1 repeatedTokenField =
      some { Name := "a", Type_ := "int", Default := "'0'",
             Uniques := ["unique_x", "unique_x"] } ∧
    generateColumnStrings RangeOrder.insertion RangeOrder.insertion
        (migrateColumnsFrom 1 [repeatedTokenField]) =
      ["`a` int not null default '0'", "unique key `unique_x` (`a`,`a`)"] := by
  decide

/-- C18, amended. For a surviving field with a non-empty `orm` token 0, the
lists `Uniques` and `Indexs` of the returned column hold, in token order and
with repetitions kept, the tokens of index 1 and up that begin with `unique`
(resp. `index`) and are not the bare word; with an empty `orm` token 0 both
lists are empty; they have no duplicates when the tokens have none. For a
table whose fields repeat no token, the clause of a composite group lists each
column that carries the group exactly once, in column order. -/
theorem C18_group_lists (t : queryTable) :
    (∀ i f c, migrateColumn i f = some c →
      (f.orm.tok0 ≠ "" →
        c.Uniques = f.orm.rest.filter (fun v => strings.HasPrefix v "unique" && v != "unique") ∧
        c.Indexs = f.orm.rest.filter (fun v => strings.HasPrefix v "index" && v != "index")) ∧
      (f.orm.tok0 = "" → c.Uniques = [] ∧ c.Indexs = []) ∧
      (f.orm.rest.Nodup → c.Uniques.Nodup ∧ c.Indexs.Nodup)) ∧
    ((∀ f ∈ t.tableStruct, f.orm.rest.Nodup) →
      (∀ g ms, (g, ms) ∈ compositeGroups (fun c => c.Uniques) (getMigrateColumns t) →
        ms = ((getMigrateColumns t).filter (fun v => g ∈ v.Uniques)).map
          (fun v => "`" ++ v.Name ++ "`")) ∧
      (∀ g ms, (g, ms) ∈ compositeGroups (fun c => c.Indexs) (getMigrateColumns t) →
        ms = ((getMigrateColumns t).filter (fun v => g ∈ v.Indexs)).map
          (fun v => "`" ++ v.Name ++ "`"))) := by
  have hfield : ∀ i f c, migrateColumn i f = some c →
      (f.orm.tok0 ≠ "" →
        c.Uniques = f.orm.rest.filter (fun v => strings.HasPrefix v "unique" && v != "unique") ∧
        c.Indexs = f.orm.rest.filter (fun v => strings.HasPrefix v "index" && v != "index")) ∧
      (f.orm.tok0 = "" → c.Uniques = [] ∧ c.Indexs = []) ∧
      (f.orm.rest.Nodup → c.Uniques.Nodup ∧ c.Indexs.Nodup) := by
    intro i f c h
    have hg := migrateColumn_groups i f c h
    refine ⟨?_, ?_, ?_⟩
    · intro h0
      rw [if_pos h0, if_pos h0] at hg
      exact hg
    · intro h0
      rw [if_neg (not_not.2 h0), if_neg (not_not.2 h0)] at hg
      exact hg
    · intro hn
      rw [hg.1, hg.2]
      constructor <;> (split_ifs <;> first | exact hn.filter _ | exact List.nodup_nil)
  refine ⟨hfield, ?_⟩
  intro hn
  have hcols : ∀ c ∈ getMigrateColumns t, c.Uniques.Nodup ∧ c.Indexs.Nodup := by
    intro c hc
    obtain ⟨j, f, hf, hj⟩ := mem_migrateColumnsFrom _ _ c hc
    exact (hfield j f c hj).2.2 (hn f hf)
  constructor
  · intro g ms h
    rw [mem_groupsOf _ g ms h, groupInsertions_members,
      members_of_nodup _ _ g (fun c hc => (hcols c hc).1)]
  · intro g ms h
    rw [mem_groupsOf _ g ms h, groupInsertions_members,
      members_of_nodup _ _ g (fun c hc => (hcols c hc).2)]

/-- C18, witness: a field tagged `orm:"a,unique_x,index_z,unique_y"`. -/
theorem C18_group_lists_witness :
    (quoteDefault (columnBeforeQuote 1 groupTokenField)).Uniques = ["unique_x", "unique_y"] ∧
    (quoteDefault (columnBeforeQuote 1 groupTokenField)).Indexs = ["index_z"] :=
  ((C18_group_lists ⟨some ⟨"t"⟩, ["a"], [groupTokenField]⟩).1 1 groupTokenField
    (quoteDefault (columnBeforeQuote 1 groupTokenField)) (by decide)).1 (by decide)

theorem migrateColumnsFrom_eq_filterMap (fs : List structField) (i : Nat) :
    migrateColumnsFrom i fs = (fs.enumFrom i).filterMap (fun p => migrateColumn p.1 p.2) := by
  induction fs generalizing i with
  | nil => rfl
  | cons g gs ih =>
    rw [List.enumFrom_cons, List.filterMap_cons]
    cases hm : migrateColumn i g with
    | none => rw [migrateColumnsFrom_cons_none gs hm, ih]
    | some c => rw [migrateColumnsFrom_cons_some gs hm, ih]

theorem quoted_length (d : String) : ("'" ++ d ++ "'").length = d.length + 2 := by
  have h1 : ("'" : String).length = 1 := rfl
  simp only [String.length_append, h1]
  omega

theorem migrateColumn_Name (i : Nat) (f : structField) (c : dBColumn)
    (h : migrateColumn i f = some c) : c.Name = columnName f ∧ c.Name ≠ "" ∧ c.Name ≠ "-" := by
  obtain ⟨hs, rfl⟩ := (migrateColumn_eq_some i f c).1 h
  have hn : (quoteDefault (columnBeforeQuote i f)).Name = columnName f := by
    unfold columnBeforeQuote
    rw [quoteDefault_Name, nullDefault_Name, ormOverride_Name, customDefault_Name,
      bookkeeping_Name, initColumn_Name]
  rw [hn]
  unfold skipped at hs
  simp only [decide_eq_false_iff_not, not_or] at hs
  exact ⟨rfl, hs.2.1.1, hs.2.1.2⟩

theorem quoteDefault_shape (c : dBColumn) :
    (quoteDefault c).Default ≠ "" ∧
    ((strings.ToLower (quoteDefault c).Default = "null" ∨
        strings.ToLower (quoteDefault c).Default = "current_timestamp" ∨
        strings.ToLower (quoteDefault c).Default =
          "current_timestamp on update current_timestamp") ∨
      ∃ d, (quoteDefault c).Default = "'" ++ d ++ "'" ∧ 2 ≤ (quoteDefault c).Default.length) := by
  rw [quoteDefault_Default]
  by_cases hq : c.Default = "" ∨ strings.ToLower c.Default ∉ definedDefault
  · rw [if_pos hq]
    have hl := quoted_length c.Default
    refine ⟨?_, Or.inr ⟨c.Default, rfl, by omega⟩⟩
    intro h
    rw [h] at hl
    have h0 : ("" : String).length = 0 := rfl
    omega
  · rw [if_neg hq]
    rw [not_or, not_not] at hq
    exact ⟨hq.1, Or.inl ((mem_definedDefault _).1 hq.2)⟩

theorem columnWords_default (c : dBColumn) (hd : c.Default ≠ "") :
    (c.AutoIncrement = true → "auto_increment" ∈ columnWords c) ∧
    (c.AutoIncrement = false → ("default " ++ c.Default) ∈ columnWords c) := by
  unfold columnWords
  constructor
  · intro ha
    simp only [ha, if_true]
    split_ifs <;> simp
  · intro ha
    simp only [ha, Bool.false_eq_true, if_false, ne_eq, hd, not_false_eq_true, if_true]
    split_ifs <;> simp

/-- C19. Every returned column has a name that is neither empty nor `-` and a
default that is not empty: its lower case is `null`, `current_timestamp` or
`current_timestamp on update current_timestamp`, or it is some text between
two single quotes, of length 2 at least. So the words of its clause hold
`auto_increment` if it is auto-increment and `default` with the default
otherwise. The returned list is what the fields give one by one, in order of
declaration, each at most one column. -/
theorem C19_well_formed (t : queryTable) :
    (∀ c ∈ getMigrateColumns t,
      c.Name ≠ "" ∧ c.Name ≠ "-" ∧ c.Default ≠ "" ∧
      ((strings.ToLower c.Default = "null" ∨
          strings.ToLower c.Default = "current_timestamp" ∨
          strings.ToLower c.Default = "current_timestamp on update current_timestamp") ∨
        ∃ d, c.Default = "'" ++ d ++ "'" ∧ 2 ≤ c.Default.length) ∧
      (c.AutoIncrement = true → "auto_increment" ∈ columnWords c) ∧
      (c.AutoIncrement = false → ("default " ++ c.Default) ∈ columnWords c)) ∧
    getMigrateColumns t =
      t.tableStruct.enum.filterMap (fun p => migrateColumn p.1 p.2) := by
  constructor
  · intro c hc
    obtain ⟨j, f, _, hj⟩ := mem_migrateColumnsFrom _ _ c hc
    have hn := migrateColumn_Name j f c hj
    obtain ⟨_, he⟩ := (migrateColumn_eq_some j f c).1 hj
    have hs := quoteDefault_shape (columnBeforeQuote j f)
    rw [← he] at hs
    exact ⟨hn.2.1, hn.2.2, hs.1, hs.2, (columnWords_default c hs.1).1,
      (columnWords_default c hs.1).2⟩
  · unfold getMigrateColumns List.enum
    exact migrateColumnsFrom_eq_filterMap _ 0

/-- C19, witness: the field `name` of the example table; its default is the
two quotes. -/
theorem C19_well_formed_witness :
    (exampleColumns.get ⟨1, by decide⟩).Name ≠ "" ∧
    (exampleColumns.get ⟨1, by decide⟩).Name ≠ "-" ∧
    (exampleColumns.get ⟨1, by decide⟩).Default ≠ "" :=
  have h := (C19_well_formed (exampleTable ["id"] false)).1 (exampleColumns.get ⟨1, by decide⟩)
    (by decide)
  ⟨h.1, h.2.1, h.2.2.1⟩

theorem not_primaryKey_of_head (s : String) (a : Char) (r : List Char)
    (hs : s.data = a :: r) (ha : 'p' ≠ a) : strings.HasPrefix s "primary key (" = false :=
  hasPrefix_false_of_head s "primary key (" a 'p' r _ hs rfl ha

theorem Join_cons_cons_data (a b : String) (l : List String) (sep : String) :
    (strings.Join (a :: b :: l) sep).data =
      a.data ++ (sep.data ++ (strings.Join (b :: l) sep).data) := by
  rw [strings.Join]
  simp only [String.data_append, List.append_assoc]

theorem columnClause_not_primaryKey (v : dBColumn) :
    strings.HasPrefix (strings.Join (clauseWords v) " ") "primary key (" = false := by
  have h : ∃ l, clauseWords v = ("`" ++ v.Name ++ "`") :: v.Type_ :: l := ⟨_, rfl⟩
  obtain ⟨l, hl⟩ := h
  rw [hl]
  exact not_primaryKey_of_head _ '`' _
    (by rw [Join_cons_cons_data]; simp only [String.data_append, List.append_assoc]; rfl)
    (by decide)

theorem uniqueKey_not_primaryKey (x : String) :
    strings.HasPrefix ("unique key `" ++ x) "primary key (" = false :=
  not_primaryKey_of_head _ 'u' _ (by simp only [String.data_append]; rfl) (by decide)

theorem key_not_primaryKey (x : String) :
    strings.HasPrefix ("key `" ++ x) "primary key (" = false :=
  not_primaryKey_of_head _ 'k' _ (by simp only [String.data_append]; rfl) (by decide)

/-- C20. The output of `generateColumnStrings` is the column clauses, then the
primary-key clause of the last primary column of the list if some column is
primary and nothing if none is, then the other key clauses; no column clause
and no other key clause begins with `primary key (`, so the output holds at
most one primary-key clause. -/
theorem C20_primary_clause (ru ri : RangeOrder) (cols : List dBColumn) :
    (∃ keys, generateColumnStrings ru ri cols =
        cols.map (fun v => strings.Join (clauseWords v) " ") ++
          (match (cols.filter (fun c => c.Primary)).getLast? with
            | none => []
            | some c => ["primary key (`" ++ c.Name ++ "`)"]) ++ keys ∧
      ∀ s ∈ keys, strings.HasPrefix s "primary key (" = false) ∧
    (∀ s ∈ cols.map (fun v => strings.Join (clauseWords v) " "),
      strings.HasPrefix s "primary key (" = false) ∧
    ((cols.filter (fun c => c.Primary)).getLast? = none ↔ ∀ c ∈ cols, c.Primary = false) := by
  refine ⟨⟨simpleUniqueClauses cols ++ (simpleIndexClauses cols ++
      ((ru.order (compositeGroups (fun c => c.Uniques) cols)).map
          (fun kv => "unique key `" ++ kv.1 ++ "` (" ++ strings.Join kv.2 "," ++ ")") ++
        (ri.order (compositeGroups (fun c => c.Indexs) cols)).map
          (fun kv => "key `" ++ kv.1 ++ "` (" ++ strings.Join kv.2 "," ++ ")"))),
    ?_, ?_⟩, ?_, ?_⟩
  · rw [generateColumnStrings_eq]
    unfold primaryClauses
    simp only [List.append_assoc]
    try rfl
  · intro s hs
    simp only [List.mem_append, List.mem_map, simpleUniqueClauses, simpleIndexClauses] at hs
    rcases hs with ⟨c, _, rfl⟩ | ⟨c, _, rfl⟩ | ⟨kv, _, rfl⟩ | ⟨kv, _, rfl⟩
    · simp only [String.append_assoc]; exact uniqueKey_not_primaryKey _
    · simp only [String.append_assoc]; exact key_not_primaryKey _
    · simp only [String.append_assoc]; exact uniqueKey_not_primaryKey _
    · simp only [String.append_assoc]; exact key_not_primaryKey _
  · intro s hs
    obtain ⟨v, _, rfl⟩ := List.mem_map.1 hs
    exact columnClause_not_primaryKey v
  · rw [List.getLast?_eq_none_iff, List.filter_eq_nil_iff]
    constructor
    · intro h c hc
      cases hp : c.Primary with
      | false => rfl
      | true => exact absurd hp (h c hc)
    · intro h c hc hp
      rw [h c hc] at hp
      cases hp

/-- Two primary columns: the output holds one primary-key clause, that of the
second one, right after the three column clauses. -/
theorem twoPrimaryColumns_strings :
    generateColumnStrings RangeOrder.insertion RangeOrder.insertion twoPrimaryColumns =
      ["`id` bigint not null default '0'", "`code` varchar(255) not null default ''",
       "`name` varchar(255) not null default ''", "primary key (`code`)"] := by
  decide

/-- C20, witness: with two primary columns, some column is primary and the
first column clause is no primary-key clause. -/
theorem C20_primary_clause_witness :
    strings.HasPrefix "`id` bigint not null default '0'" "primary key (" = false ∧
    ¬ (twoPrimaryColumns.filter (fun c => c.Primary)).getLast? = none :=
  ⟨(C20_primary_clause RangeOrder.insertion RangeOrder.insertion twoPrimaryColumns).2.1 _
      (by decide),
    fun h => absurd
      (((C20_primary_clause RangeOrder.insertion RangeOrder.insertion twoPrimaryColumns).2.2).1
        h _ (List.mem_cons_self _ _)) (by decide)⟩

end orm
